import Mathlib

/-! WeatherNow: daily aggregation, weather data client, local preference store
and format utilities.

A shallow embedding of `src/services/weatherAPI.js` (`processDailyForecasts`,
`handleAPIError`, `searchCities`), of `src/services/storage.js` (the
favorites, recent-searches, settings and last-location operations) and of
`src/utils/helpers.js` (`getUVIndexDescription`, `validateCoordinates`), together with the constants of
`src/utils/constants.js` they use.

Conventions of the embedding.

* JavaScript numbers that carry measurements (temperature, humidity, wind speed,
  precipitation probability, coordinates) are rationals; timestamps are integers.
* `new Date(item.dt * 1000).toDateString()` depends on the time zone of the
  device. It is a parameter `toDateString : ℤ → κ` of the aggregation, the
  calendar-day key of a timestamp under the fixed time zone.
* The object `dailyForecasts` is an association list in insertion order: the
  keys produced by `toDateString` are never array indices, so `Object.values`
  enumerates the entries in the order in which the keys were created.
* `AsyncStorage` is an in-memory map from the four storage keys to stored
  texts, and `Date.now()` is an argument of the operations that read it.
* `processDailyForecasts` is embedded twice: as a function of the list of
  samples, and on an explicit heap of objects, where what a call leaves of the
  objects it is given can be stated; the two are proved to return the same
  array.
-/

namespace WeatherNow

/-! ## Daily aggregation (`weatherAPI.js`) -/

/-- One element of `forecastList`: the fields `processDailyForecasts` reads.
`temp` is `item.main.temp`, `humidity` is `item.main.humidity`, `weather` is
`item.weather[0]`, `wind_speed` is `item.wind.speed`, and `pop` is `none` when
the sample carries no `pop` field. -/
structure ForecastItem where
  dt : ℤ
  temp : ℚ
  humidity : ℚ
  weather : String
  wind_speed : ℚ
  pop : Option ℚ
  deriving DecidableEq

/-- The value kept under `dailyForecasts[date]` while the list is traversed;
`tempMin`/`tempMax` are `temp.min`/`temp.max`. -/
structure DayEntry where
  dt : ℤ
  tempMin : ℚ
  tempMax : ℚ
  weather : String
  humidity : ℚ
  wind_speed : ℚ
  pop : ℚ
  allTemps : List ℚ
  deriving DecidableEq

/-- An element of the array returned by `processDailyForecasts`: the day entry
without `allTemps` and with `humidity` overwritten by `Math.round(avgHumidity)`. -/
structure DailyForecast where
  dt : ℤ
  tempMin : ℚ
  tempMax : ℚ
  weather : String
  humidity : ℤ
  wind_speed : ℚ
  pop : ℚ
  deriving DecidableEq

/-- `item.pop || 0`: a missing `pop` and the falsy number `0` both give `0`. -/
def popOrZero : Option ℚ → ℚ
  | none => 0
  | some p => if p = 0 then 0 else p

/-- `Math.round`: the nearest integer, a tie going to the larger one. -/
def mathRound (x : ℚ) : ℤ := ⌊x + 1 / 2⌋

/-- The object literal assigned to `dailyForecasts[date]` for the first sample
of a day. -/
def initDay (item : ForecastItem) : DayEntry :=
  { dt := item.dt
    tempMin := item.temp
    tempMax := item.temp
    weather := item.weather
    humidity := item.humidity
    wind_speed := item.wind_speed
    pop := popOrZero item.pop
    allTemps := [item.temp] }

/-- The `else` branch of the callback: the updates made to an existing day
entry. `item.pop > day.pop` is false when `item.pop` is `undefined`. -/
def updateDay (day : DayEntry) (item : ForecastItem) : DayEntry :=
  { day with
    tempMin := min day.tempMin item.temp
    tempMax := max day.tempMax item.temp
    allTemps := day.allTemps ++ [item.temp]
    pop := match item.pop with
      | some p => if p > day.pop then p else day.pop
      | none => day.pop }

/-- Property read `dailyForecasts[date]`. -/
def lookupDay {κ : Type} [DecidableEq κ] (date : κ) : List (κ × DayEntry) → Option DayEntry
  | [] => none
  | (d, day) :: rest => if d = date then some day else lookupDay date rest

/-- In-place update of the entry stored under `date`. -/
def modifyDay {κ : Type} [DecidableEq κ] (date : κ) (f : DayEntry → DayEntry) :
    List (κ × DayEntry) → List (κ × DayEntry)
  | [] => []
  | (d, day) :: rest =>
    if d = date then (d, f day) :: rest else (d, day) :: modifyDay date f rest

/-- The callback passed to `forecastList.forEach`. -/
def forEachCallback {κ : Type} [DecidableEq κ] (toDateString : ℤ → κ)
    (dailyForecasts : List (κ × DayEntry)) (item : ForecastItem) : List (κ × DayEntry) :=
  let date := toDateString item.dt
  match lookupDay date dailyForecasts with
  | none => dailyForecasts ++ [(date, initDay item)]
  | some _ => modifyDay date (fun day => updateDay day item) dailyForecasts

/-- The callback passed to `Object.values(dailyForecasts).map`. -/
def mapCallback (day : DayEntry) : DailyForecast :=
  let avgHumidity : ℚ :=
    day.allTemps.foldl (fun sum temp => sum + temp) 0 / (day.allTemps.length : ℚ)
  { dt := day.dt
    tempMin := day.tempMin
    tempMax := day.tempMax
    weather := day.weather
    humidity := mathRound avgHumidity
    wind_speed := day.wind_speed
    pop := day.pop }

/-- The function `processDailyForecasts` of `weatherAPI.js`. -/
def processDailyForecasts {κ : Type} [DecidableEq κ] (toDateString : ℤ → κ)
    (forecastList : List ForecastItem) : List DailyForecast :=
  let dailyForecasts := forecastList.foldl (forEachCallback toDateString) []
  dailyForecasts.map (fun entry => mapCallback entry.2)

/-! ### The aggregation on an explicit heap

`processDailyForecasts` allocates and updates objects. To state what a call
leaves of the objects it is given, the same function is also embedded with the
heap made explicit: a heap is the list of its objects, an address is an index,
an allocation appends an object and an assignment replaces one. A sample with
the `main`, `weather` and `wind` objects it refers to is one heap object; a
day entry with its `temp` object and its `allTemps` array, which one object
literal creates and which are reachable through the entry only, is one heap
object. -/

/-- An object on the heap: a sample of the forecast list, a day entry kept in
`dailyForecasts`, or a day entry after `delete day.allTemps` (its `allTemps`
is no longer a property). -/
inductive HeapObject where
  | sample (item : ForecastItem)
  | day (entry : DayEntry)
  | stripped (entry : DayEntry)
  deriving DecidableEq

/-- The state of the traversal: the heap and the object `dailyForecasts`, whose
properties hold the addresses of the day entries. -/
structure ForEachState (κ : Type) where
  heap : List HeapObject
  dailyForecasts : List (κ × ℕ)

/-- Property read `dailyForecasts[date]` as a reference. -/
def lookupAddress {κ : Type} [DecidableEq κ] (date : κ) : List (κ × ℕ) → Option ℕ
  | [] => none
  | (d, address) :: rest => if d = date then some address else lookupAddress date rest

/-- The callback passed to `forecastList.forEach`, applied to the sample at
`itemAddress`: a new day entry is allocated at the end of the heap, an
existing one is assigned at its address. `none` when an address does not hold
the kind of object the callback reads. -/
def forEachCallbackOnHeap {κ : Type} [DecidableEq κ] (toDateString : ℤ → κ)
    (state : ForEachState κ) (itemAddress : ℕ) : Option (ForEachState κ) :=
  match state.heap[itemAddress]? with
  | some (HeapObject.sample item) =>
    let date := toDateString item.dt
    match lookupAddress date state.dailyForecasts with
    | none =>
      some { heap := state.heap ++ [HeapObject.day (initDay item)]
             dailyForecasts := state.dailyForecasts ++ [(date, state.heap.length)] }
    | some address =>
      match state.heap[address]? with
      | some (HeapObject.day day) =>
        some { state with heap := state.heap.set address (HeapObject.day (updateDay day item)) }
      | _ => none
  | _ => none

/-- The traversal `forecastList.forEach(...)` over the addresses of the
samples. -/
def forEachOnHeap {κ : Type} [DecidableEq κ] (toDateString : ℤ → κ) :
    ForEachState κ → List ℕ → Option (ForEachState κ)
  | state, [] => some state
  | state, itemAddress :: rest =>
    match forEachCallbackOnHeap toDateString state itemAddress with
    | none => none
    | some next => forEachOnHeap toDateString next rest

/-- The traversal `Object.values(dailyForecasts).map(...)` over the addresses
of the day entries: each callback computes the returned entry, then
`delete day.allTemps` assigns the day entry. -/
def mapOnHeap : List HeapObject → List ℕ → Option (List DailyForecast × List HeapObject)
  | heap, [] => some ([], heap)
  | heap, address :: rest =>
    match heap[address]? with
    | some (HeapObject.day day) =>
      match mapOnHeap (heap.set address (HeapObject.stripped day)) rest with
      | some (forecasts, after) => some (mapCallback day :: forecasts, after)
      | none => none
    | _ => none

/-- The function `processDailyForecasts` on an explicit heap: `forecastList`
holds the addresses of the samples, and the result is the returned array with
the heap the call leaves. -/
def processDailyForecastsOnHeap {κ : Type} [DecidableEq κ] (toDateString : ℤ → κ)
    (heap : List HeapObject) (forecastList : List ℕ) :
    Option (List DailyForecast × List HeapObject) :=
  match forEachOnHeap toDateString { heap := heap, dailyForecasts := [] } forecastList with
  | none => none
  | some state => mapOnHeap state.heap (state.dailyForecasts.map Prod.snd)

/-- The addresses at which a table of day entries lies when its entries were
allocated one after the other from address `first` on. -/
def addressesFrom {κ : Type} (first : ℕ) : List (κ × DayEntry) → List (κ × ℕ)
  | [] => []
  | (d, _) :: rest => (d, first) :: addressesFrom (first + 1) rest

/-- The calendar-day key of a device whose time zone is UTC: the number of the
day since the epoch. -/
def utcDay (dt : ℤ) : ℤ := dt / 86400

/-- The distinct elements of a list in the order of their first occurrence. -/
def firstSeen {κ : Type} [DecidableEq κ] (keys : List κ) : List κ :=
  keys.foldl (fun seen a => if a ∈ seen then seen else seen ++ [a]) []


/-- Three samples over two UTC days: the first two fall on day 0, the third on
day 1; the second and third carry no `pop`. -/
def sampleForecast : List ForecastItem :=
  [ { dt := 0, temp := 10, humidity := 80, weather := "Clear", wind_speed := 3, pop := some (1 / 5) },
    { dt := 10800, temp := 15, humidity := 60, weather := "Rain", wind_speed := 4, pop := none },
    { dt := 86400, temp := 5, humidity := 70, weather := "Snow", wind_speed := 1, pop := none } ]

/-- The entry `processDailyForecasts` returns for day 0 of `sampleForecast`. -/
def sampleDay0 : DailyForecast :=
  { dt := 0, tempMin := 10, tempMax := 15, weather := "Clear", humidity := 13, wind_speed := 3,
    pop := 1 / 5 }

/-- The entry `processDailyForecasts` returns for day 1 of `sampleForecast`. -/
def sampleDay1 : DailyForecast :=
  { dt := 86400, tempMin := 5, tempMax := 5, weather := "Snow", humidity := 5, wind_speed := 1,
    pop := 0 }

/-- A single sample with temperature 10 and humidity 80. -/
def singleSample : ForecastItem :=
  { dt := 0, temp := 10, humidity := 80, weather := "Clear", wind_speed := 3, pop := none }

/-! ## Local preference store (`storage.js`) -/

/-- `MAX_FAVORITES` of `constants.js`. -/
def MAX_FAVORITES : ℕ := 5

/-- `MAX_RECENT_SEARCHES` of `constants.js`. -/
def MAX_RECENT_SEARCHES : ℕ := 3

/-- A location id: a number or a string; `===` never identifies the two. -/
inductive LocationId where
  | num (n : ℤ)
  | str (s : String)
  deriving DecidableEq

/-- The fields of a location object the store reads: `lat`/`lon` are
`location.coord.lat`/`location.coord.lon`, `country` is `location.sys.country`. -/
structure Location where
  id : LocationId
  name : String
  lat : ℚ
  lon : ℚ
  country : String
  deriving DecidableEq

/-- The object `saveFavorite` pushes onto the favorites array. -/
structure Favorite where
  id : LocationId
  name : String
  lat : ℚ
  lon : ℚ
  country : String
  addedAt : ℤ
  deriving DecidableEq

/-- The object `saveRecentSearch` puts in front of the recent searches. -/
structure RecentSearch where
  id : LocationId
  name : String
  lat : ℚ
  lon : ℚ
  country : String
  searchedAt : ℤ
  deriving DecidableEq

/-- The object `saveLastLocation` stores. -/
structure LastLocation where
  id : LocationId
  name : String
  lat : ℚ
  lon : ℚ
  country : String
  savedAt : ℤ
  deriving DecidableEq

/-- A value of a settings object. -/
inductive SettingValue where
  | str (s : String)
  | bool (b : Bool)
  deriving DecidableEq

/-- A settings object: its keys with their values. -/
abbrev Settings := List (String × SettingValue)

/-- The text held under a storage key, seen through `JSON.parse`: `invalid` is
a text on which `JSON.parse` throws (the empty text included, which the getters
treat alike), `other` a text that parses to a value of another shape than the
key expects (for a list key: a value that is not an array), and `json value`
the text `JSON.stringify(value)`. -/
inductive StoredText (α : Type) where
  | invalid
  | other
  | json (value : α)
  deriving DecidableEq

/-- The state of `AsyncStorage`: the item under each of the four `STORAGE_KEYS`,
`none` when the key is absent (`getItem` resolves to `null`). -/
structure AsyncStorage where
  favorites : Option (StoredText (List Favorite))
  recentSearches : Option (StoredText (List RecentSearch))
  settings : Option (StoredText Settings)
  lastLocation : Option (StoredText LastLocation)
  deriving DecidableEq

/-- What a getter resolves to: a value of the expected shape, or some other
JSON value. -/
inductive Loaded (α : Type) where
  | value (v : α)
  | other
  deriving DecidableEq

/-- A thrown JavaScript exception: `new Error(message)` or a `TypeError` raised
by the runtime. -/
inductive JsError where
  | error (message : String)
  | typeError
  deriving DecidableEq

/-- The function `getFavorites` of `storage.js`: `data ? JSON.parse(data) : []`,
and `[]` when `JSON.parse` throws. -/
def getFavorites (storage : AsyncStorage) : Loaded (List Favorite) :=
  match storage.favorites with
  | none => Loaded.value []
  | some StoredText.invalid => Loaded.value []
  | some StoredText.other => Loaded.other
  | some (StoredText.json favorites) => Loaded.value favorites

/-- The function `saveFavorite` of `storage.js`, with `now` the value of
`Date.now()`. The result is the resolved value or the exception the promise is
rejected with (the `catch` block logs and rethrows), paired with the storage
state the call leaves. On a value that is not an array `favorites.some` is not
a function. -/
def saveFavorite (now : ℤ) (location : Location) (storage : AsyncStorage) :
    Except JsError Bool × AsyncStorage :=
  match getFavorites storage with
  | Loaded.other => (Except.error JsError.typeError, storage)
  | Loaded.value favorites =>
    let exists_ := favorites.any (fun fav => decide (fav.id = location.id))
    if exists_ then (Except.ok false, storage)
    else if favorites.length ≥ MAX_FAVORITES then
      (Except.error (JsError.error ("Maximum " ++ toString MAX_FAVORITES ++ " favorites allowed")),
        storage)
    else
      let pushed := favorites ++
        [{ id := location.id, name := location.name, lat := location.lat, lon := location.lon,
           country := location.country, addedAt := now }]
      (Except.ok true, { storage with favorites := some (StoredText.json pushed) })

/-- A favorite with numeric id `n`. -/
def sampleFavorite (n : ℤ) : Favorite :=
  { id := LocationId.num n, name := "City", lat := 51, lon := -114, country := "CA", addedAt := 0 }

/-- A storage state whose favorites key holds five favorites, ids 1 to 5. -/
def fullStorage : AsyncStorage :=
  { favorites := some (StoredText.json
      [sampleFavorite 1, sampleFavorite 2, sampleFavorite 3, sampleFavorite 4, sampleFavorite 5])
    recentSearches := none
    settings := none
    lastLocation := none }

/-- A location with numeric id `n`. -/
def sampleLocation (n : ℤ) : Location :=
  { id := LocationId.num n, name := "Calgary", lat := 51, lon := -114, country := "CA" }

/-- The function `removeFavorite` of `storage.js`: the resolved value paired
with the storage state the call leaves. On a value that is not an array
`favorites.filter` is not a function; the `catch` block turns the exception
into `false`. -/
def removeFavorite (locationId : LocationId) (storage : AsyncStorage) : Bool × AsyncStorage :=
  match getFavorites storage with
  | Loaded.other => (false, storage)
  | Loaded.value favorites =>
    let updated := favorites.filter (fun fav => decide (fav.id ≠ locationId))
    (true, { storage with favorites := some (StoredText.json updated) })

/-- A call of one of the two operations that write the favorites key. -/
inductive FavoritesCall where
  | save (now : ℤ) (location : Location)
  | remove (locationId : LocationId)

/-- The storage state a call leaves, its result discarded. -/
def FavoritesCall.run (call : FavoritesCall) (storage : AsyncStorage) : AsyncStorage :=
  match call with
  | FavoritesCall.save now location => (saveFavorite now location storage).2
  | FavoritesCall.remove locationId => (removeFavorite locationId storage).2

/-- The storage state left by a sequence of calls made one after the other. -/
def runFavoritesCalls (calls : List FavoritesCall) (storage : AsyncStorage) : AsyncStorage :=
  calls.foldl (fun state call => call.run state) storage

/-- The function `getRecentSearches` of `storage.js`. -/
def getRecentSearches (storage : AsyncStorage) : Loaded (List RecentSearch) :=
  match storage.recentSearches with
  | none => Loaded.value []
  | some StoredText.invalid => Loaded.value []
  | some StoredText.other => Loaded.other
  | some (StoredText.json recentSearches) => Loaded.value recentSearches

/-- The function `saveRecentSearch` of `storage.js`, with `now` the value of
`Date.now()`; `slice(0, MAX_RECENT_SEARCHES)` is `List.take`. On a value that is
not an array `recentSearches.filter` is not a function and the `catch` block
returns `false`. -/
def saveRecentSearch (now : ℤ) (location : Location) (storage : AsyncStorage) :
    Bool × AsyncStorage :=
  match getRecentSearches storage with
  | Loaded.other => (false, storage)
  | Loaded.value stored =>
    let filtered := stored.filter (fun search => decide (search.id ≠ location.id))
    let unshifted : List RecentSearch :=
      { id := location.id, name := location.name, lat := location.lat, lon := location.lon,
        country := location.country, searchedAt := now } :: filtered
    let recentSearches :=
      if unshifted.length > MAX_RECENT_SEARCHES then unshifted.take MAX_RECENT_SEARCHES
      else unshifted
    (true, { storage with recentSearches := some (StoredText.json recentSearches) })

/-- `DEFAULT_SETTINGS` of `constants.js`, with `TEMPERATURE_UNITS.CELSIUS`,
`WIND_SPEED_UNITS.KMH` and `TIME_FORMATS.TWELVE_HOUR` replaced by their values. -/
def DEFAULT_SETTINGS : Settings :=
  [ ("temperatureUnit", SettingValue.str "metric"),
    ("windSpeedUnit", SettingValue.str "km/h"),
    ("timeFormat", SettingValue.str "12h"),
    ("weatherAlerts", SettingValue.bool true),
    ("dailyForecast", SettingValue.bool true),
    ("autoLocation", SettingValue.bool true) ]

/-- Property read `object[key]`, `none` for `undefined`. A list of pairs stands
for the object obtained by assigning its pairs in order, so the last pair with
the key gives the value. -/
def getProperty (key : String) : Settings → Option SettingValue
  | [] => none
  | (k, v) :: rest =>
    match getProperty key rest with
    | some w => some w
    | none => if k = key then some v else none

/-- Property assignment `object[key] = value`: an existing key keeps its place,
a new key goes last. -/
def setProperty (key : String) (value : SettingValue) : Settings → Settings
  | [] => [(key, value)]
  | (k, v) :: rest =>
    if k = key then (k, value) :: rest else (k, v) :: setProperty key value rest

/-- Object spread `...source` into `target`: the pairs of `source` are assigned
in order. -/
def spreadInto (target source : Settings) : Settings :=
  source.foldl (fun object entry => setProperty entry.1 entry.2 object) target

/-- The function `getSettings` of `storage.js`. -/
def getSettings (storage : AsyncStorage) : Loaded Settings :=
  match storage.settings with
  | none => Loaded.value DEFAULT_SETTINGS
  | some StoredText.invalid => Loaded.value DEFAULT_SETTINGS
  | some StoredText.other => Loaded.other
  | some (StoredText.json settings) => Loaded.value settings

/-- The function `saveSettings` of `storage.js`:
`{ ...currentSettings, ...settings }` is stored. When `currentSettings` is a
value that is not a settings object, its spread is taken to contribute no
property (exact for `null`, numbers and booleans). -/
def saveSettings (settings : Settings) (storage : AsyncStorage) : Bool × AsyncStorage :=
  let currentSettings : Settings :=
    match getSettings storage with
    | Loaded.value current => current
    | Loaded.other => []
  let updatedSettings := spreadInto (spreadInto [] currentSettings) settings
  (true, { storage with settings := some (StoredText.json updatedSettings) })

/-- The function `resetSettings` of `storage.js`. -/
def resetSettings (storage : AsyncStorage) : Bool × AsyncStorage :=
  (true, { storage with settings := some (StoredText.json DEFAULT_SETTINGS) })

/-- A storage state in which none of the four keys is present. -/
def emptyStorage : AsyncStorage :=
  { favorites := none, recentSearches := none, settings := none, lastLocation := none }

/-- A storage state whose favorites key holds two favorites, ids 1 and 2, and
whose settings key holds an imperial temperature unit. -/
def partStorage : AsyncStorage :=
  { favorites := some (StoredText.json [sampleFavorite 1, sampleFavorite 2])
    recentSearches := none
    settings := some (StoredText.json [("temperatureUnit", SettingValue.str "imperial")])
    lastLocation := none }

/-- A recent search with numeric id `n` made at time `at_`. -/
def sampleSearch (n : ℤ) (at_ : ℤ) : RecentSearch :=
  { id := LocationId.num n, name := "Calgary", lat := 51, lon := -114, country := "CA",
    searchedAt := at_ }

/-- A storage state whose recent-searches key holds three searches, ids 2, 3
and 4, the most recent first. -/
def threeSearches : AsyncStorage :=
  { favorites := none
    recentSearches := some (StoredText.json [sampleSearch 2 4, sampleSearch 3 3, sampleSearch 4 2])
    settings := none
    lastLocation := none }

/-- The function `getLastLocation` of `storage.js`: `null` (here `none`) when
the key is absent or its text does not parse. -/
def getLastLocation (storage : AsyncStorage) : Loaded (Option LastLocation) :=
  match storage.lastLocation with
  | none => Loaded.value none
  | some StoredText.invalid => Loaded.value none
  | some StoredText.other => Loaded.other
  | some (StoredText.json location) => Loaded.value (some location)

/-- The function `clearAllData` of `storage.js`: `multiRemove` of the four
storage keys. -/
def clearAllData (_storage : AsyncStorage) : Bool × AsyncStorage :=
  (true, { favorites := none, recentSearches := none, settings := none, lastLocation := none })

/-- A storage state whose favorites key holds valid JSON that is not an array,
such as the text of an object. -/
def misshapenStorage : AsyncStorage :=
  { favorites := some StoredText.other, recentSearches := none, settings := none,
    lastLocation := none }

/-! ## Weather data client (`weatherAPI.js`) -/

/-- The value of `error.response.data` as `handleAPIError` reads it: `nullish`
is `null` or `undefined`, on which the property read `.message` throws; `body
message` is any other value, `message` being its `message` property, `none`
when it has none. -/
inductive ResponseData where
  | nullish
  | body (message : Option String)
  deriving DecidableEq

/-- The value bound by `catch (error)` as `handleAPIError` reads it: `response`
is `none` when `error.response` is missing, `request` tells whether
`error.request` is truthy, and `message` is `error.message`. -/
structure CaughtError where
  response : Option ResponseData
  request : Bool
  message : Option String
  deriving DecidableEq

/-- The operator `value || fallback` on a message: a missing message and the
empty string are falsy. -/
def orFallback (value : Option String) (fallback : String) : String :=
  match value with
  | none => fallback
  | some message => if message = "" then fallback else message

/-- The object `new Error(message)` as a later `catch` sees it: it has neither
`response` nor `request`. -/
def newError (message : String) : CaughtError :=
  { response := none, request := false, message := some message }

/-- The function `handleAPIError` of `weatherAPI.js`: `Except.ok` holds the
error object it returns, `Except.error` the exception it throws itself. -/
def handleAPIError (error : CaughtError) : Except JsError JsError :=
  match error.response with
  | some ResponseData.nullish => Except.error JsError.typeError
  | some (ResponseData.body message) =>
    Except.ok (JsError.error (orFallback message "Server error occurred"))
  | none =>
    if error.request then
      Except.ok (JsError.error "No response from server. Check your internet connection.")
    else Except.ok (JsError.error (orFallback error.message "An error occurred"))

/-- The `params` of the request `api.get('/find', ...)`. -/
structure FindParams where
  q : String
  type : String
  cnt : ℕ
  deriving DecidableEq

/-- The outcome of `await api.get(...)`: a response, of which `list` is
`response.data.list` (`none` when the field is missing), or a rejection with
the error that is caught. -/
inductive ApiResult where
  | response (list : Option (List Location))
  | rejected (error : CaughtError)

/-- The function `searchCities` of `weatherAPI.js`, with `get` the remote API
behind `api.get('/find', ...)` and `limit` `none` when the argument is omitted.
The result is the resolved list or the exception the promise is rejected
with: the error `handleAPIError` returns, or the one it throws. -/
def searchCities (get : FindParams → ApiResult) (query : String) (limit : Option ℕ) :
    Except JsError (List Location) :=
  match get { q := query, type := "like", cnt := limit.getD 5 } with
  | ApiResult.response list => Except.ok (list.getD [])
  | ApiResult.rejected error =>
    match handleAPIError error with
    | Except.ok formatted => Except.error formatted
    | Except.error thrown => Except.error thrown

/-- A remote API that answers every search with six cities, ids 1 to 6. -/
def sixCities (_params : FindParams) : ApiResult :=
  ApiResult.response (some [sampleLocation 1, sampleLocation 2, sampleLocation 3,
    sampleLocation 4, sampleLocation 5, sampleLocation 6])

/-- A remote API that answers every search with an empty list. -/
def noCities (_params : FindParams) : ApiResult := ApiResult.response (some [])

/-- A server response whose body is the JSON text `null`. -/
def nullBodyError : CaughtError :=
  { response := some ResponseData.nullish, request := true,
    message := some "Request failed with status code 500" }

/-! ## Format utilities (`helpers.js`) -/

/-- The function `getUVIndexDescription` of `helpers.js`. -/
def getUVIndexDescription (uvIndex : ℚ) : String :=
  if uvIndex ≤ 2 then "Low"
  else if uvIndex ≤ 5 then "Moderate"
  else if uvIndex ≤ 7 then "High"
  else if uvIndex ≤ 10 then "Very High"
  else "Extreme"

/-- A JavaScript value as `validateCoordinates` tests it: a number, or a value
whose `typeof` is not `'number'`. -/
inductive JsValue where
  | number (x : ℚ)
  | notNumber
  deriving DecidableEq

/-- The function `validateCoordinates` of `helpers.js`. -/
def validateCoordinates (lat lon : JsValue) : Bool :=
  match lat, lon with
  | JsValue.number lat, JsValue.number lon =>
    decide (lat ≥ -90) && decide (lat ≤ 90) && decide (lon ≥ -180) && decide (lon ≤ 180)
  | _, _ => false

/-! ## Properties of the daily aggregation -/

theorem addressesFrom_append {κ : Type} (first : ℕ) (T : List (κ × DayEntry)) (date : κ)
    (v : DayEntry) :
    addressesFrom first (T ++ [(date, v)]) = addressesFrom first T ++ [(date, first + T.length)] := by
  induction T generalizing first with
  | nil => simp [addressesFrom]
  | cons e rest ih =>
    obtain ⟨d, w⟩ := e
    show (d, first) :: addressesFrom (first + 1) (rest ++ [(date, v)])
      = (d, first) :: (addressesFrom (first + 1) rest ++ [(date, first + (rest.length + 1))])
    rw [ih, Nat.add_assoc, Nat.add_comm 1]

theorem mapOnHeap_spec {κ : Type} (T : List (κ × DayEntry)) (pre : List HeapObject) :
    mapOnHeap (pre ++ T.map (fun e => HeapObject.day e.2))
        ((addressesFrom pre.length T).map Prod.snd)
      = some (T.map (fun e => mapCallback e.2),
          pre ++ T.map (fun e => HeapObject.stripped e.2)) := by
  induction T generalizing pre with
  | nil => simp [addressesFrom, mapOnHeap]
  | cons e rest ih =>
    obtain ⟨d, v⟩ := e
    have hread : (pre ++ HeapObject.day v :: rest.map (fun e => HeapObject.day e.2))[pre.length]?
        = some (HeapObject.day v) := by
      rw [List.getElem?_append_right (le_refl _)]
      simp
    have hset : (pre ++ HeapObject.day v :: rest.map (fun e => HeapObject.day e.2)).set
        pre.length (HeapObject.stripped v)
        = (pre ++ [HeapObject.stripped v]) ++ rest.map (fun e => HeapObject.day e.2) := by
      rw [List.set_append_right _ _ (le_refl _)]
      simp
    have hlen : (pre ++ [HeapObject.stripped v]).length = pre.length + 1 := by simp
    have hrest := ih (pre ++ [HeapObject.stripped v])
    rw [hlen] at hrest
    simp only [List.map_cons, addressesFrom, mapOnHeap, hread, hset, hrest]
    simp

section Aggregation

variable {κ : Type} [DecidableEq κ]

theorem firstSeen_snoc (l : List κ) (a : κ) :
    firstSeen (l ++ [a]) = if a ∈ firstSeen l then firstSeen l else firstSeen l ++ [a] := by
  simp [firstSeen, List.foldl_append]

theorem mem_firstSeen {l : List κ} {a : κ} : a ∈ firstSeen l ↔ a ∈ l := by
  induction l using List.reverseRecOn generalizing a with
  | nil => simp [firstSeen]
  | append_singleton l b ih =>
    rw [firstSeen_snoc]
    by_cases hb : b ∈ firstSeen l
    · rw [if_pos hb, List.mem_append, List.mem_singleton, ih]
      constructor
      · exact Or.inl
      · rintro (h | h)
        · exact h
        · rw [h]; exact ih.mp hb
    · rw [if_neg hb, List.mem_append, List.mem_append, ih]

theorem firstSeen_nodup (l : List κ) : (firstSeen l).Nodup := by
  induction l using List.reverseRecOn with
  | nil => simp [firstSeen]
  | append_singleton l b ih =>
    rw [firstSeen_snoc]
    by_cases hb : b ∈ firstSeen l
    · rw [if_pos hb]; exact ih
    · rw [if_neg hb]
      refine List.nodup_append.mpr ⟨ih, List.nodup_singleton b, ?_⟩
      intro x hx hx2
      rw [List.mem_singleton] at hx2
      exact hb (hx2 ▸ hx)

theorem firstSeen_pairwise (l : List κ) :
    (firstSeen l).Pairwise (fun a b => l.indexOf a < l.indexOf b) := by
  induction l using List.reverseRecOn with
  | nil => simp [firstSeen]
  | append_singleton l b ih =>
    have hstep : (firstSeen l).Pairwise
        (fun x y => (l ++ [b]).indexOf x < (l ++ [b]).indexOf y) := by
      refine (List.pairwise_iff_forall_sublist.mpr ?_)
      intro x y hxy
      have hx : x ∈ l := mem_firstSeen.mp (hxy.subset (by simp))
      have hy : y ∈ l := mem_firstSeen.mp (hxy.subset (by simp))
      rw [List.indexOf_append_of_mem hx, List.indexOf_append_of_mem hy]
      exact List.pairwise_iff_forall_sublist.mp ih hxy
    rw [firstSeen_snoc]
    by_cases hb : b ∈ firstSeen l
    · rw [if_pos hb]; exact hstep
    · rw [if_neg hb]
      refine List.pairwise_append.mpr ⟨hstep, List.pairwise_singleton _ _, ?_⟩
      intro x hx y hy
      rw [List.mem_singleton] at hy
      subst hy
      have hx2 : x ∈ l := mem_firstSeen.mp hx
      have hb2 : y ∉ l := fun h => hb (mem_firstSeen.mpr h)
      rw [List.indexOf_append_of_mem hx2, List.indexOf_append_of_not_mem hb2]
      have := List.indexOf_lt_length.mpr hx2
      omega


theorem lookupDay_eq_none {date : κ} {T : List (κ × DayEntry)} :
    lookupDay date T = none ↔ date ∉ T.map Prod.fst := by
  induction T with
  | nil => simp [lookupDay]
  | cons e rest ih =>
    obtain ⟨d, day⟩ := e
    by_cases hd : d = date
    · simp [lookupDay, hd]
    · have hd2 : ¬ date = d := fun h => hd h.symm
      simp [lookupDay, hd, hd2, ih]

theorem map_fst_modifyDay (date : κ) (f : DayEntry → DayEntry) (T : List (κ × DayEntry)) :
    (modifyDay date f T).map Prod.fst = T.map Prod.fst := by
  induction T with
  | nil => simp [modifyDay]
  | cons e rest ih =>
    obtain ⟨d, day⟩ := e
    by_cases hd : d = date
    · simp [modifyDay, hd]
    · simp [modifyDay, hd, ih]

theorem mem_modifyDay {date : κ} {f : DayEntry → DayEntry} {T : List (κ × DayEntry)}
    (hnd : (T.map Prod.fst).Nodup) {e : κ × DayEntry} (he : e ∈ modifyDay date f T) :
    ∃ day, (e.1, day) ∈ T ∧ e.2 = if e.1 = date then f day else day := by
  induction T with
  | nil => simp [modifyDay] at he
  | cons e0 rest ih =>
    obtain ⟨d, day0⟩ := e0
    rw [List.map_cons, List.nodup_cons] at hnd
    by_cases hd : d = date
    · rw [modifyDay, if_pos hd, List.mem_cons] at he
      rcases he with he | he
      · refine ⟨day0, ?_, ?_⟩
        · rw [he]; exact List.mem_cons_self _ _
        · rw [he]; simp [hd]
      · refine ⟨e.2, List.mem_cons_of_mem _ he, ?_⟩
        have hne : e.1 ≠ date := by
          intro h
          apply hnd.1
          rw [hd, ← h]
          exact List.mem_map.mpr ⟨e, he, rfl⟩
        rw [if_neg hne]
    · rw [modifyDay, if_neg hd, List.mem_cons] at he
      rcases he with he | he
      · refine ⟨day0, ?_, ?_⟩
        · rw [he]; exact List.mem_cons_self _ _
        · rw [he]; simp [hd]
      · obtain ⟨day, hmem, hval⟩ := ih hnd.2 he
        exact ⟨day, List.mem_cons_of_mem _ hmem, hval⟩

/-- The table built by the traversal: its keys are the day keys of the samples
in first-occurrence order, and the entry under a key is the first sample of that
day folded with the later samples of that day. -/
theorem table_spec (toDateString : ℤ → κ) (l : List ForecastItem) :
    ((l.foldl (forEachCallback toDateString) []).map Prod.fst
        = firstSeen (l.map (fun x => toDateString x.dt))) ∧
    ∀ e ∈ l.foldl (forEachCallback toDateString) [],
      ∃ first rest, l.filter (fun x => toDateString x.dt = e.1) = first :: rest ∧
        e.2 = rest.foldl updateDay (initDay first) := by
  induction l using List.reverseRecOn with
  | nil => simp [firstSeen]
  | append_singleton l x ih =>
    obtain ⟨ihk, ihe⟩ := ih
    rw [List.foldl_append, List.foldl_cons, List.foldl_nil, List.map_append, List.map_cons,
      List.map_nil, firstSeen_snoc]
    generalize hT : l.foldl (forEachCallback toDateString) [] = T at ihk ihe ⊢
    cases hlk : lookupDay (toDateString x.dt) T with
    | none =>
      have hnot : toDateString x.dt ∉ firstSeen (l.map (fun x => toDateString x.dt)) := by
        rw [← ihk]; exact lookupDay_eq_none.mp hlk
      have hcb : forEachCallback toDateString T x = T ++ [(toDateString x.dt, initDay x)] := by
        simp [forEachCallback, hlk]
      rw [hcb, if_neg hnot]
      refine ⟨by simp [ihk], ?_⟩
      intro e he
      rw [List.mem_append, List.mem_singleton] at he
      rcases he with he | he
      · obtain ⟨first, rest, hf, hv⟩ := ihe e he
        refine ⟨first, rest, ?_, hv⟩
        have hne : toDateString x.dt ≠ e.1 := by
          intro h
          apply hnot
          rw [← ihk, h]
          exact List.mem_map.mpr ⟨e, he, rfl⟩
        rw [List.filter_append, hf]
        simp [List.filter, hne]
      · refine ⟨x, [], ?_, by rw [he]; rfl⟩
        have hnil : l.filter (fun y => toDateString y.dt = toDateString x.dt) = [] := by
          rw [List.filter_eq_nil_iff]
          intro y hy hyk
          apply hnot
          rw [mem_firstSeen]
          have := List.mem_map_of_mem (fun x => toDateString x.dt) hy
          simp only [decide_eq_true_eq] at hyk
          rw [← hyk]; exact this
        rw [he, List.filter_append, hnil]
        simp [List.filter]
    | some day0 =>
      have hin : toDateString x.dt ∈ firstSeen (l.map (fun x => toDateString x.dt)) := by
        rw [← ihk]
        by_contra h
        rw [lookupDay_eq_none.mpr h] at hlk
        exact Option.noConfusion hlk
      have hcb : forEachCallback toDateString T x
          = modifyDay (toDateString x.dt) (fun day => updateDay day x) T := by
        simp [forEachCallback, hlk]
      rw [hcb, if_pos hin, map_fst_modifyDay]
      refine ⟨ihk, ?_⟩
      intro e he
      have hnd : (T.map Prod.fst).Nodup := by rw [ihk]; exact firstSeen_nodup _
      obtain ⟨day, hmem, hval⟩ := mem_modifyDay hnd he
      obtain ⟨first, rest, hf, hv⟩ := ihe (e.1, day) hmem
      simp only at hf hv
      by_cases hk : e.1 = toDateString x.dt
      · refine ⟨first, rest ++ [x], ?_, ?_⟩
        · rw [List.filter_append, hf]
          simp [List.filter, hk]
        · rw [hval, if_pos hk, hv, List.foldl_append]
          rfl
      · refine ⟨first, rest, ?_, ?_⟩
        · have hk2 : ¬ toDateString x.dt = e.1 := fun h => hk h.symm
          rw [List.filter_append, hf]
          simp [List.filter, hk2]
        · rw [hval, if_neg hk, hv]


theorem foldl_updateDay_frame (rest : List ForecastItem) (d : DayEntry) :
    (rest.foldl updateDay d).dt = d.dt ∧ (rest.foldl updateDay d).weather = d.weather ∧
    (rest.foldl updateDay d).humidity = d.humidity ∧
    (rest.foldl updateDay d).wind_speed = d.wind_speed := by
  induction rest generalizing d with
  | nil => simp
  | cons x rest ih =>
    rw [List.foldl_cons]
    obtain ⟨h1, h2, h3, h4⟩ := ih (updateDay d x)
    exact ⟨h1, h2, h3, h4⟩

theorem foldl_updateDay_allTemps (rest : List ForecastItem) (d : DayEntry) :
    (rest.foldl updateDay d).allTemps = d.allTemps ++ rest.map (fun x => x.temp) := by
  induction rest generalizing d with
  | nil => simp
  | cons x rest ih =>
    rw [List.foldl_cons, ih]
    simp [updateDay]

theorem foldl_updateDay_min_le (rest : List ForecastItem) (d : DayEntry) :
    (rest.foldl updateDay d).tempMin ≤ d.tempMin ∧
    ∀ x ∈ rest, (rest.foldl updateDay d).tempMin ≤ x.temp := by
  induction rest generalizing d with
  | nil => simp
  | cons y rest ih =>
    rw [List.foldl_cons]
    obtain ⟨h1, h2⟩ := ih (updateDay d y)
    have hy : (updateDay d y).tempMin = min d.tempMin y.temp := rfl
    rw [hy] at h1
    refine ⟨le_trans h1 (min_le_left _ _), ?_⟩
    intro x hx
    rw [List.mem_cons] at hx
    rcases hx with hx | hx
    · rw [hx]; exact le_trans h1 (min_le_right _ _)
    · exact h2 x hx

theorem foldl_updateDay_min_mem (rest : List ForecastItem) (d : DayEntry) :
    (rest.foldl updateDay d).tempMin = d.tempMin ∨
    ∃ x ∈ rest, x.temp = (rest.foldl updateDay d).tempMin := by
  induction rest generalizing d with
  | nil => simp
  | cons y rest ih =>
    rw [List.foldl_cons]
    rcases ih (updateDay d y) with h | ⟨x, hx, hxt⟩
    · have hy : (updateDay d y).tempMin = min d.tempMin y.temp := rfl
      rw [hy] at h
      rcases min_choice d.tempMin y.temp with hm | hm
      · left; rw [h, hm]
      · right; exact ⟨y, List.mem_cons_self _ _, by rw [h, hm]⟩
    · right; exact ⟨x, List.mem_cons_of_mem _ hx, hxt⟩

theorem foldl_updateDay_le_max (rest : List ForecastItem) (d : DayEntry) :
    d.tempMax ≤ (rest.foldl updateDay d).tempMax ∧
    ∀ x ∈ rest, x.temp ≤ (rest.foldl updateDay d).tempMax := by
  induction rest generalizing d with
  | nil => simp
  | cons y rest ih =>
    rw [List.foldl_cons]
    obtain ⟨h1, h2⟩ := ih (updateDay d y)
    have hy : (updateDay d y).tempMax = max d.tempMax y.temp := rfl
    rw [hy] at h1
    refine ⟨le_trans (le_max_left _ _) h1, ?_⟩
    intro x hx
    rw [List.mem_cons] at hx
    rcases hx with hx | hx
    · rw [hx]; exact le_trans (le_max_right _ _) h1
    · exact h2 x hx

theorem foldl_updateDay_max_mem (rest : List ForecastItem) (d : DayEntry) :
    (rest.foldl updateDay d).tempMax = d.tempMax ∨
    ∃ x ∈ rest, x.temp = (rest.foldl updateDay d).tempMax := by
  induction rest generalizing d with
  | nil => simp
  | cons y rest ih =>
    rw [List.foldl_cons]
    rcases ih (updateDay d y) with h | ⟨x, hx, hxt⟩
    · have hy : (updateDay d y).tempMax = max d.tempMax y.temp := rfl
      rw [hy] at h
      rcases max_choice d.tempMax y.temp with hm | hm
      · left; rw [h, hm]
      · right; exact ⟨y, List.mem_cons_self _ _, by rw [h, hm]⟩
    · right; exact ⟨x, List.mem_cons_of_mem _ hx, hxt⟩

theorem updateDay_pop_le (d : DayEntry) (y : ForecastItem) :
    d.pop ≤ (updateDay d y).pop ∧ ∀ p, y.pop = some p → p ≤ (updateDay d y).pop := by
  cases hp : y.pop with
  | none => simp [updateDay, hp]
  | some q =>
    by_cases hq : q > d.pop
    · simp [updateDay, hp, hq, le_of_lt hq]
    · simp [updateDay, hp, hq, not_lt.mp hq]

theorem updateDay_pop_mem (d : DayEntry) (y : ForecastItem) :
    (updateDay d y).pop = d.pop ∨ y.pop = some (updateDay d y).pop := by
  cases hp : y.pop with
  | none => simp [updateDay, hp]
  | some q =>
    by_cases hq : q > d.pop
    · simp [updateDay, hp, hq]
    · simp [updateDay, hp, hq]

theorem foldl_updateDay_pop_le (rest : List ForecastItem) (d : DayEntry) :
    d.pop ≤ (rest.foldl updateDay d).pop ∧
    ∀ x ∈ rest, ∀ p, x.pop = some p → p ≤ (rest.foldl updateDay d).pop := by
  induction rest generalizing d with
  | nil => simp
  | cons y rest ih =>
    rw [List.foldl_cons]
    obtain ⟨h1, h2⟩ := ih (updateDay d y)
    obtain ⟨u1, u2⟩ := updateDay_pop_le d y
    refine ⟨le_trans u1 h1, ?_⟩
    intro x hx p hp
    rw [List.mem_cons] at hx
    rcases hx with hx | hx
    · rw [hx] at hp; exact le_trans (u2 p hp) h1
    · exact h2 x hx p hp

theorem foldl_updateDay_pop_mem (rest : List ForecastItem) (d : DayEntry) :
    (rest.foldl updateDay d).pop = d.pop ∨
    ∃ x ∈ rest, x.pop = some (rest.foldl updateDay d).pop := by
  induction rest generalizing d with
  | nil => simp
  | cons y rest ih =>
    rw [List.foldl_cons]
    rcases ih (updateDay d y) with h | ⟨x, hx, hxt⟩
    · rcases updateDay_pop_mem d y with hm | hm
      · left; rw [h, hm]
      · right; exact ⟨y, List.mem_cons_self _ _, by rw [h]; exact hm⟩
    · right; exact ⟨x, List.mem_cons_of_mem _ hx, hxt⟩

/-- Every returned entry is the image under `mapCallback` of the first sample
of its day folded with the later samples of that day. -/
theorem entry_spec (toDateString : ℤ → κ) (l : List ForecastItem) (e : DailyForecast)
    (he : e ∈ processDailyForecasts toDateString l) :
    ∃ first rest, l.filter (fun x => toDateString x.dt = toDateString e.dt) = first :: rest ∧
      e = mapCallback (rest.foldl updateDay (initDay first)) := by
  obtain ⟨t, ht, hte⟩ := List.mem_map.mp he
  obtain ⟨first, rest, hf, hv⟩ := (table_spec toDateString l).2 t ht
  have hdt : e.dt = first.dt := by
    rw [← hte, hv]
    exact (foldl_updateDay_frame rest (initDay first)).1
  have hmem : first ∈ l.filter (fun x => toDateString x.dt = t.1) := by
    rw [hf]; exact List.mem_cons_self _ _
  have hkey : toDateString first.dt = t.1 := by
    have := (List.mem_filter.mp hmem).2
    simpa using this
  refine ⟨first, rest, ?_, ?_⟩
  · rw [hdt, hkey]; exact hf
  · rw [← hte, hv]

theorem map_key_processDailyForecasts (toDateString : ℤ → κ) (l : List ForecastItem) :
    (processDailyForecasts toDateString l).map (fun e => toDateString e.dt)
      = firstSeen (l.map (fun x => toDateString x.dt)) := by
  rw [← (table_spec toDateString l).1]
  unfold processDailyForecasts
  rw [List.map_map]
  apply List.map_congr_left
  intro t ht
  obtain ⟨first, rest, hf, hv⟩ := (table_spec toDateString l).2 t ht
  have hmem : first ∈ l.filter (fun x => toDateString x.dt = t.1) := by
    rw [hf]; exact List.mem_cons_self _ _
  have hkey : toDateString first.dt = t.1 := by
    have := (List.mem_filter.mp hmem).2
    simpa using this
  show toDateString (mapCallback t.2).dt = t.1
  rw [hv]
  show toDateString (rest.foldl updateDay (initDay first)).dt = t.1
  rw [(foldl_updateDay_frame rest (initDay first)).1]
  exact hkey


theorem find?_of_filter_eq_cons {α : Type} (p : α → Bool) (l : List α) (first : α)
    (rest : List α) (h : l.filter p = first :: rest) : l.find? p = some first := by
  induction l with
  | nil => simp at h
  | cons a l ih =>
    by_cases hp : p a = true
    · rw [List.filter_cons_of_pos hp] at h
      rw [List.find?_cons_of_pos _ hp]
      exact congrArg some (List.cons.inj h).1
    · rw [List.filter_cons_of_neg hp] at h
      rw [List.find?_cons_of_neg _ hp]
      exact ih h

/-- The value of `mathRound` is the integer nearest to the argument, the larger
one on a tie. -/
theorem mathRound_nearest (x : ℚ) : (mathRound x : ℚ) - 1 / 2 ≤ x ∧ x < mathRound x + 1 / 2 := by
  have h1 := Int.floor_le (x + 1 / 2)
  have h2 := Int.lt_floor_add_one (x + 1 / 2)
  unfold mathRound
  constructor <;> linarith

theorem processDailyForecasts_sampleForecast :
    processDailyForecasts utcDay sampleForecast = [sampleDay0, sampleDay1] := by
  simp [processDailyForecasts, sampleForecast, sampleDay0, sampleDay1, forEachCallback, utcDay,
    lookupDay, modifyDay, initDay, updateDay, mapCallback, mathRound, popOrZero]
  norm_num [Int.floor_eq_iff]

/-- C1. The returned entries are in one-to-one correspondence with the distinct
calendar-day keys of the input: a key is the key of a returned entry exactly
when it is the key of a sample, no two returned entries have the same key,
the number of entries is the number of distinct keys, and the entries are
ordered by the position at which their key first occurs in the input, whether
or not the samples of a day are contiguous. -/
theorem processDailyForecasts_one_entry_per_day (toDateString : ℤ → κ)
    (l : List ForecastItem) :
    (∀ key, key ∈ (processDailyForecasts toDateString l).map (fun e => toDateString e.dt)
        ↔ key ∈ l.map (fun x => toDateString x.dt)) ∧
    ((processDailyForecasts toDateString l).map (fun e => toDateString e.dt)).Nodup ∧
    (processDailyForecasts toDateString l).length
        = (l.map (fun x => toDateString x.dt)).toFinset.card ∧
    ((processDailyForecasts toDateString l).map (fun e => toDateString e.dt)).Pairwise
        (fun a b => (l.map (fun x => toDateString x.dt)).indexOf a
          < (l.map (fun x => toDateString x.dt)).indexOf b) := by
  rw [map_key_processDailyForecasts]
  refine ⟨fun key => mem_firstSeen, firstSeen_nodup _, ?_, firstSeen_pairwise _⟩
  have hlen : (processDailyForecasts toDateString l).length
      = (firstSeen (l.map (fun x => toDateString x.dt))).length := by
    rw [← map_key_processDailyForecasts, List.length_map]
  rw [hlen, ← List.toFinset_card_of_nodup (firstSeen_nodup _)]
  congr 1
  ext key
  simp only [List.mem_toFinset]
  exact mem_firstSeen

/-- C2. For every returned entry, `temp.min` is the least and `temp.max` the
greatest `main.temp` among the input samples that have the entry's calendar-day
key: each is a bound for all those samples and is attained by one of them. -/
theorem processDailyForecasts_temp_min_max (toDateString : ℤ → κ) (l : List ForecastItem)
    (e : DailyForecast) (he : e ∈ processDailyForecasts toDateString l) :
    (∀ x ∈ l.filter (fun x => toDateString x.dt = toDateString e.dt), e.tempMin ≤ x.temp) ∧
    (∃ x ∈ l.filter (fun x => toDateString x.dt = toDateString e.dt), x.temp = e.tempMin) ∧
    (∀ x ∈ l.filter (fun x => toDateString x.dt = toDateString e.dt), x.temp ≤ e.tempMax) ∧
    (∃ x ∈ l.filter (fun x => toDateString x.dt = toDateString e.dt), x.temp = e.tempMax) := by
  obtain ⟨first, rest, hf, hv⟩ := entry_spec toDateString l e he
  rw [hf, hv]
  have hmin : (mapCallback (rest.foldl updateDay (initDay first))).tempMin
      = (rest.foldl updateDay (initDay first)).tempMin := rfl
  have hmax : (mapCallback (rest.foldl updateDay (initDay first))).tempMax
      = (rest.foldl updateDay (initDay first)).tempMax := rfl
  rw [hmin, hmax]
  obtain ⟨a1, a2⟩ := foldl_updateDay_min_le rest (initDay first)
  obtain ⟨b1, b2⟩ := foldl_updateDay_le_max rest (initDay first)
  refine ⟨?_, ?_, ?_, ?_⟩
  · intro x hx
    rcases List.mem_cons.mp hx with hx | hx
    · rw [hx]; exact a1
    · exact a2 x hx
  · rcases foldl_updateDay_min_mem rest (initDay first) with h | ⟨x, hx, hxt⟩
    · exact ⟨first, List.mem_cons_self _ _, h.symm⟩
    · exact ⟨x, List.mem_cons_of_mem _ hx, hxt⟩
  · intro x hx
    rcases List.mem_cons.mp hx with hx | hx
    · rw [hx]; exact b1
    · exact b2 x hx
  · rcases foldl_updateDay_max_mem rest (initDay first) with h | ⟨x, hx, hxt⟩
    · exact ⟨first, List.mem_cons_self _ _, h.symm⟩
    · exact ⟨x, List.mem_cons_of_mem _ hx, hxt⟩

/-- Witness of C2 on `sampleForecast`: the day-0 entry has minimum 10 and
maximum 15, the temperatures of the two samples of that day. -/
theorem processDailyForecasts_temp_min_max_witness :
    sampleDay0 ∈ processDailyForecasts utcDay sampleForecast ∧
    ((∀ x ∈ sampleForecast.filter (fun x => utcDay x.dt = utcDay sampleDay0.dt),
        sampleDay0.tempMin ≤ x.temp) ∧
      (∃ x ∈ sampleForecast.filter (fun x => utcDay x.dt = utcDay sampleDay0.dt),
        x.temp = sampleDay0.tempMin) ∧
      (∀ x ∈ sampleForecast.filter (fun x => utcDay x.dt = utcDay sampleDay0.dt),
        x.temp ≤ sampleDay0.tempMax) ∧
      (∃ x ∈ sampleForecast.filter (fun x => utcDay x.dt = utcDay sampleDay0.dt),
        x.temp = sampleDay0.tempMax)) :=
  ⟨by rw [processDailyForecasts_sampleForecast]; simp,
    processDailyForecasts_temp_min_max utcDay sampleForecast sampleDay0
      (by rw [processDailyForecasts_sampleForecast]; simp)⟩

/-- The humidity of every returned entry is the rounded mean of the
temperatures collected in `allTemps` for the entry's day. -/
theorem processDailyForecasts_humidity_eq (toDateString : ℤ → κ) (l : List ForecastItem)
    (e : DailyForecast) (he : e ∈ processDailyForecasts toDateString l) :
    e.humidity = mathRound
      (((l.filter (fun x => toDateString x.dt = toDateString e.dt)).map
          (fun x => x.temp)).foldl (fun sum temp => sum + temp) 0 /
        ((l.filter (fun x => toDateString x.dt = toDateString e.dt)).length : ℚ)) := by
  obtain ⟨first, rest, hf, hv⟩ := entry_spec toDateString l e he
  have hall : (rest.foldl updateDay (initDay first)).allTemps
      = (first :: rest).map (fun x => x.temp) := by
    rw [foldl_updateDay_allTemps]; rfl
  have hhum : e.humidity = mathRound
      ((rest.foldl updateDay (initDay first)).allTemps.foldl (fun sum temp => sum + temp) 0 /
        ((rest.foldl updateDay (initDay first)).allTemps.length : ℚ)) := by
    rw [hv]; rfl
  rw [hhum, hall, hf, List.length_map]

/-- C3 (evaluation at the failing input). On a single sample with temperature 10
and humidity 80 the returned entry has humidity 10, the rounded mean of the
temperatures in `allTemps`, whereas the rounded mean of the humidities is 80. -/
theorem processDailyForecasts_humidity_single_sample :
    (processDailyForecasts utcDay [singleSample]).map (fun e => e.humidity) = [10] ∧
    mathRound (singleSample.humidity / 1) = 80 := by
  constructor
  · simp [processDailyForecasts, singleSample, forEachCallback, utcDay, lookupDay, initDay,
      mapCallback, mathRound, popOrZero]
    norm_num [Int.floor_eq_iff]
  · simp [singleSample, mathRound]
    norm_num [Int.floor_eq_iff]

/-- C4. Every entry returned by `processDailyForecasts` has
`temp.min ≤ temp.max`. -/
theorem processDailyForecasts_min_le_max (toDateString : ℤ → κ) (l : List ForecastItem)
    (e : DailyForecast) (he : e ∈ processDailyForecasts toDateString l) :
    e.tempMin ≤ e.tempMax := by
  obtain ⟨first, rest, _, hv⟩ := entry_spec toDateString l e he
  rw [hv]
  show (rest.foldl updateDay (initDay first)).tempMin ≤ (rest.foldl updateDay (initDay first)).tempMax
  exact le_trans (foldl_updateDay_min_le rest (initDay first)).1
    (foldl_updateDay_le_max rest (initDay first)).1

/-- Witness of C4 on `sampleForecast`: the day-0 entry has 10 ≤ 15. -/
theorem processDailyForecasts_min_le_max_witness :
    sampleDay0 ∈ processDailyForecasts utcDay sampleForecast ∧
    sampleDay0.tempMin ≤ sampleDay0.tempMax :=
  ⟨by rw [processDailyForecasts_sampleForecast]; simp,
    processDailyForecasts_min_le_max utcDay sampleForecast sampleDay0
      (by rw [processDailyForecasts_sampleForecast]; simp)⟩

/-- C5. When the precipitation probabilities present in the input are
probabilities (not negative), the `pop` of every returned entry is the greatest
value, over the samples with the entry's calendar-day key, of the sample's
`pop` with a missing `pop` counted as 0: it bounds all of them and is attained
by one of them. The entry's `pop` is a number in every case. -/
theorem processDailyForecasts_pop_max (toDateString : ℤ → κ) (l : List ForecastItem)
    (hpop : ∀ x ∈ l, ∀ p, x.pop = some p → 0 ≤ p)
    (e : DailyForecast) (he : e ∈ processDailyForecasts toDateString l) :
    (∀ x ∈ l.filter (fun x => toDateString x.dt = toDateString e.dt), x.pop.getD 0 ≤ e.pop) ∧
    (∃ x ∈ l.filter (fun x => toDateString x.dt = toDateString e.dt), x.pop.getD 0 = e.pop) := by
  obtain ⟨first, rest, hf, hv⟩ := entry_spec toDateString l e he
  have hfirst : first ∈ l := by
    have : first ∈ l.filter (fun x => toDateString x.dt = toDateString e.dt) := by
      rw [hf]; exact List.mem_cons_self _ _
    exact (List.mem_filter.mp this).1
  have hinit : (initDay first).pop = first.pop.getD 0 := by
    show popOrZero first.pop = first.pop.getD 0
    cases hp : first.pop with
    | none => rfl
    | some p =>
      by_cases h0 : p = 0
      · simp [popOrZero, h0]
      · simp [popOrZero, h0]
  have hinit0 : 0 ≤ (initDay first).pop := by
    rw [hinit]
    cases hp : first.pop with
    | none => exact le_refl _
    | some p => exact hpop first hfirst p hp
  rw [hf, hv]
  have hpopeq : (mapCallback (rest.foldl updateDay (initDay first))).pop
      = (rest.foldl updateDay (initDay first)).pop := rfl
  rw [hpopeq]
  obtain ⟨a1, a2⟩ := foldl_updateDay_pop_le rest (initDay first)
  constructor
  · intro x hx
    rcases List.mem_cons.mp hx with hx | hx
    · rw [hx, ← hinit]; exact a1
    · cases hp : x.pop with
      | none => exact le_trans hinit0 a1
      | some p => exact a2 x hx p hp
  · rcases foldl_updateDay_pop_mem rest (initDay first) with h | ⟨x, hx, hxp⟩
    · exact ⟨first, List.mem_cons_self _ _, by rw [h, hinit]⟩
    · exact ⟨x, List.mem_cons_of_mem _ hx, by rw [hxp]; rfl⟩

/-- Witness of C5 on `sampleForecast`: the day-0 entry has `pop` 1/5, the first
sample's, the second sample of the day carrying none. -/
theorem processDailyForecasts_pop_max_witness :
    (∀ x ∈ sampleForecast, ∀ p, x.pop = some p → 0 ≤ p) ∧
    sampleDay0 ∈ processDailyForecasts utcDay sampleForecast ∧
    ((∀ x ∈ sampleForecast.filter (fun x => utcDay x.dt = utcDay sampleDay0.dt),
        x.pop.getD 0 ≤ sampleDay0.pop) ∧
      (∃ x ∈ sampleForecast.filter (fun x => utcDay x.dt = utcDay sampleDay0.dt),
        x.pop.getD 0 = sampleDay0.pop)) :=
  ⟨by simp [sampleForecast],
    by rw [processDailyForecasts_sampleForecast]; simp,
    processDailyForecasts_pop_max utcDay sampleForecast
      (by simp [sampleForecast]) sampleDay0
      (by rw [processDailyForecasts_sampleForecast]; simp)⟩

/-- C6. The `dt` and `weather` of every returned entry are those of the first
sample, in input order, that has the entry's calendar-day key. -/
theorem processDailyForecasts_first_sample (toDateString : ℤ → κ) (l : List ForecastItem)
    (e : DailyForecast) (he : e ∈ processDailyForecasts toDateString l) :
    ∃ first, l.find? (fun x => toDateString x.dt = toDateString e.dt) = some first ∧
      e.dt = first.dt ∧ e.weather = first.weather := by
  obtain ⟨first, rest, hf, hv⟩ := entry_spec toDateString l e he
  refine ⟨first, find?_of_filter_eq_cons _ l first rest hf, ?_, ?_⟩
  · rw [hv]; exact (foldl_updateDay_frame rest (initDay first)).1
  · rw [hv]; exact (foldl_updateDay_frame rest (initDay first)).2.1

/-- Witness of C6 on `sampleForecast`: the day-0 entry keeps the timestamp 0 and
the condition "Clear" of the first sample, although the second sample of the
day reports "Rain". -/
theorem processDailyForecasts_first_sample_witness :
    sampleDay0 ∈ processDailyForecasts utcDay sampleForecast ∧
    ∃ first, sampleForecast.find? (fun x => utcDay x.dt = utcDay sampleDay0.dt) = some first ∧
      sampleDay0.dt = first.dt ∧ sampleDay0.weather = first.weather :=
  ⟨by rw [processDailyForecasts_sampleForecast]; simp,
    processDailyForecasts_first_sample utcDay sampleForecast sampleDay0
      (by rw [processDailyForecasts_sampleForecast]; simp)⟩

/-- C7. On the empty sample list `processDailyForecasts` returns the empty
list. -/
theorem processDailyForecasts_nil (toDateString : ℤ → κ) :
    processDailyForecasts toDateString [] = [] := rfl

theorem lookupAddress_addressesFrom_none (date : κ) (T : List (κ × DayEntry)) (first : ℕ)
    (h : lookupDay date T = none) : lookupAddress date (addressesFrom first T) = none := by
  induction T generalizing first with
  | nil => rfl
  | cons e rest ih =>
    obtain ⟨d, v⟩ := e
    by_cases hd : d = date
    · simp [lookupDay, hd] at h
    · simp only [lookupDay, if_neg hd] at h
      simp only [addressesFrom, lookupAddress, if_neg hd]
      exact ih (first + 1) h

theorem lookupAddress_addressesFrom_some (date : κ) (f : DayEntry → DayEntry)
    (T : List (κ × DayEntry)) (pre : List HeapObject) (day : DayEntry)
    (h : lookupDay date T = some day) :
    ∃ address, lookupAddress date (addressesFrom pre.length T) = some address ∧
      (pre ++ T.map (fun e => HeapObject.day e.2))[address]? = some (HeapObject.day day) ∧
      (pre ++ T.map (fun e => HeapObject.day e.2)).set address (HeapObject.day (f day))
        = pre ++ (modifyDay date f T).map (fun e => HeapObject.day e.2) ∧
      addressesFrom pre.length (modifyDay date f T) = addressesFrom pre.length T := by
  induction T generalizing pre with
  | nil => simp [lookupDay] at h
  | cons e rest ih =>
    obtain ⟨d, v⟩ := e
    by_cases hd : d = date
    · simp only [lookupDay, if_pos hd, Option.some.injEq] at h
      subst h
      refine ⟨pre.length, ?_, ?_, ?_, ?_⟩
      · simp [addressesFrom, lookupAddress, hd]
      · rw [List.getElem?_append_right (le_refl _)]
        simp
      · rw [List.set_append_right _ _ (le_refl _)]
        simp [modifyDay, hd]
      · simp [modifyDay, hd, addressesFrom]
    · simp only [lookupDay, if_neg hd] at h
      obtain ⟨address, h1, h2, h3, h4⟩ := ih (pre ++ [HeapObject.day v]) h
      have hlen : (pre ++ [HeapObject.day v]).length = pre.length + 1 := by simp
      rw [hlen] at h1 h4
      refine ⟨address, ?_, ?_, ?_, ?_⟩
      · simp only [addressesFrom, lookupAddress, if_neg hd]
        exact h1
      · rw [List.map_cons, List.append_cons]
        exact h2
      · rw [List.map_cons, List.append_cons, h3]
        simp [modifyDay, hd]
      · simp only [modifyDay, if_neg hd, addressesFrom, h4]

theorem forEachCallbackOnHeap_spec (toDateString : ℤ → κ) (heap : List HeapObject)
    (T : List (κ × DayEntry)) (itemAddress : ℕ) (item : ForecastItem)
    (h : heap[itemAddress]? = some (HeapObject.sample item)) :
    forEachCallbackOnHeap toDateString
        { heap := heap ++ T.map (fun e => HeapObject.day e.2)
          dailyForecasts := addressesFrom heap.length T } itemAddress
      = some
        { heap := heap ++ (forEachCallback toDateString T item).map (fun e => HeapObject.day e.2)
          dailyForecasts := addressesFrom heap.length (forEachCallback toDateString T item) } := by
  have hlt : itemAddress < heap.length := (List.getElem?_eq_some.mp h).1
  have hread : (heap ++ T.map (fun e => HeapObject.day e.2))[itemAddress]?
      = some (HeapObject.sample item) := by
    rw [List.getElem?_append_left hlt]; exact h
  cases hlk : lookupDay (toDateString item.dt) T with
  | none =>
    have hcb : forEachCallback toDateString T item
        = T ++ [(toDateString item.dt, initDay item)] := by
      simp [forEachCallback, hlk]
    simp only [forEachCallbackOnHeap, hread,
      lookupAddress_addressesFrom_none _ T heap.length hlk, hcb, addressesFrom_append]
    simp
  | some day0 =>
    have hcb : forEachCallback toDateString T item
        = modifyDay (toDateString item.dt) (fun day => updateDay day item) T := by
      simp [forEachCallback, hlk]
    obtain ⟨address, h1, h2, h3, h4⟩ := lookupAddress_addressesFrom_some
      (toDateString item.dt) (fun day => updateDay day item) T heap day0 hlk
    simp only [forEachCallbackOnHeap, hread, h1, h2, h3, hcb, h4]

theorem forEachOnHeap_spec (toDateString : ℤ → κ) (heap : List HeapObject)
    (forecastList : List ℕ) (items : List ForecastItem) (T : List (κ × DayEntry))
    (h : forecastList.map (fun address => heap[address]?)
      = items.map (fun item => some (HeapObject.sample item))) :
    forEachOnHeap toDateString
        { heap := heap ++ T.map (fun e => HeapObject.day e.2)
          dailyForecasts := addressesFrom heap.length T } forecastList
      = some
        { heap := heap ++ (items.foldl (forEachCallback toDateString) T).map
            (fun e => HeapObject.day e.2)
          dailyForecasts := addressesFrom heap.length
            (items.foldl (forEachCallback toDateString) T) } := by
  induction forecastList generalizing items T with
  | nil =>
    cases items with
    | nil => rfl
    | cons item items => simp at h
  | cons address rest ih =>
    cases items with
    | nil => simp at h
    | cons item items =>
      simp only [List.map_cons, List.cons.injEq] at h
      simp only [forEachOnHeap, forEachCallbackOnHeap_spec toDateString heap T address item h.1,
        List.foldl_cons]
      exact ih items _ h.2

/-- The aggregation on the heap returns the array the function
`processDailyForecasts` returns on the samples read at the given addresses,
and leaves the heap it was given followed by the day entries it allocated. -/
theorem processDailyForecastsOnHeap_spec (toDateString : ℤ → κ) (heap : List HeapObject)
    (forecastList : List ℕ) (items : List ForecastItem)
    (h : forecastList.map (fun address => heap[address]?)
      = items.map (fun item => some (HeapObject.sample item))) :
    processDailyForecastsOnHeap toDateString heap forecastList
      = some (processDailyForecasts toDateString items,
          heap ++ (items.foldl (forEachCallback toDateString) []).map
            (fun e => HeapObject.stripped e.2)) := by
  have hloop := forEachOnHeap_spec toDateString heap forecastList items [] h
  simp only [List.map_nil, List.append_nil, addressesFrom] at hloop
  simp only [processDailyForecastsOnHeap, hloop, mapOnHeap_spec, processDailyForecasts]

/-- C8. A call of `processDailyForecasts` on a list of samples returns a
result, and leaves every object that was on the heap before the call as it
was, the samples among them: the heap after the call starts with the heap
before it. A second call on the same list then returns the same array as the
first. The array is the one the function returns on the samples as a value. -/
theorem processDailyForecastsOnHeap_twice (toDateString : ℤ → κ) (heap : List HeapObject)
    (forecastList : List ℕ) (items : List ForecastItem)
    (hsamples : forecastList.map (fun address => heap[address]?)
      = items.map (fun item => some (HeapObject.sample item))) :
    ∃ after again,
      processDailyForecastsOnHeap toDateString heap forecastList
        = some (processDailyForecasts toDateString items, after) ∧
      after.take heap.length = heap ∧
      forecastList.map (fun address => after[address]?)
        = forecastList.map (fun address => heap[address]?) ∧
      processDailyForecastsOnHeap toDateString after forecastList
        = some (processDailyForecasts toDateString items, again) := by
  have hkept : forecastList.map (fun address =>
      (heap ++ (items.foldl (forEachCallback toDateString) []).map
        (fun e => HeapObject.stripped e.2))[address]?)
      = forecastList.map (fun address => heap[address]?) := by
    apply List.map_congr_left
    intro address haddress
    have hmem : heap[address]? ∈ forecastList.map (fun address => heap[address]?) :=
      List.mem_map.mpr ⟨address, haddress, rfl⟩
    rw [hsamples] at hmem
    obtain ⟨item, _, hitem⟩ := List.mem_map.mp hmem
    have hlt : address < heap.length := (List.getElem?_eq_some.mp hitem.symm).1
    exact List.getElem?_append_left hlt
  exact ⟨_, _, processDailyForecastsOnHeap_spec toDateString heap forecastList items hsamples,
    List.take_left _ _, hkept,
    processDailyForecastsOnHeap_spec toDateString _ forecastList items (hkept.trans hsamples)⟩

/-- Witness of C8: the three samples of `sampleForecast` at the addresses 0, 1
and 2 of a heap that holds nothing else. -/
theorem processDailyForecastsOnHeap_twice_witness :
    ∃ after again,
      processDailyForecastsOnHeap utcDay (sampleForecast.map HeapObject.sample) [0, 1, 2]
        = some (processDailyForecasts utcDay sampleForecast, after) ∧
      after.take (sampleForecast.map HeapObject.sample).length
        = sampleForecast.map HeapObject.sample ∧
      [0, 1, 2].map (fun address => after[address]?)
        = [0, 1, 2].map (fun address => (sampleForecast.map HeapObject.sample)[address]?) ∧
      processDailyForecastsOnHeap utcDay after [0, 1, 2]
        = some (processDailyForecasts utcDay sampleForecast, again) :=
  processDailyForecastsOnHeap_twice utcDay (sampleForecast.map HeapObject.sample) [0, 1, 2]
    sampleForecast rfl

end Aggregation

/-! ## Properties of the favorites store -/

theorem any_id_eq_false {favorites : List Favorite} {id : LocationId}
    (h : ∀ fav ∈ favorites, fav.id ≠ id) :
    favorites.any (fun fav => decide (fav.id = id)) = false := by
  rw [List.any_eq_false]
  intro fav hfav
  simpa using h fav hfav

theorem any_id_eq_true {favorites : List Favorite} {id : LocationId}
    (h : ∃ fav ∈ favorites, fav.id = id) :
    favorites.any (fun fav => decide (fav.id = id)) = true := by
  rw [List.any_eq_true]
  obtain ⟨fav, hfav, hid⟩ := h
  exact ⟨fav, hfav, by simpa using hid⟩

/-- C9. When the favorites key holds a list of exactly 5 entries, none with the
id of the location, `saveFavorite` is rejected with the error
`Maximum 5 favorites allowed` and leaves the storage as it was, so that
`getFavorites` still returns the same 5 entries. -/
theorem saveFavorite_full (now : ℤ) (location : Location) (storage : AsyncStorage)
    (favorites : List Favorite) (hstored : storage.favorites = some (StoredText.json favorites))
    (hlen : favorites.length = 5) (hnew : ∀ fav ∈ favorites, fav.id ≠ location.id) :
    saveFavorite now location storage
      = (Except.error (JsError.error "Maximum 5 favorites allowed"), storage) ∧
    getFavorites (saveFavorite now location storage).2 = Loaded.value favorites := by
  have hget : getFavorites storage = Loaded.value favorites := by
    simp [getFavorites, hstored]
  have hres : saveFavorite now location storage
      = (Except.error (JsError.error "Maximum 5 favorites allowed"), storage) := by
    have hmsg : "Maximum " ++ toString MAX_FAVORITES ++ " favorites allowed"
        = "Maximum 5 favorites allowed" := by decide
    simp only [saveFavorite, hget, any_id_eq_false hnew, hlen, hmsg]
    simp [MAX_FAVORITES]
  refine ⟨hres, ?_⟩
  rw [hres]
  exact hget

/-- Witness of C9: saving a location with id 6 into `fullStorage`, whose
favorites have ids 1 to 5. -/
theorem saveFavorite_full_witness :
    saveFavorite 1000 (sampleLocation 6) fullStorage
      = (Except.error (JsError.error "Maximum 5 favorites allowed"), fullStorage) ∧
    getFavorites (saveFavorite 1000 (sampleLocation 6) fullStorage).2
      = Loaded.value [sampleFavorite 1, sampleFavorite 2, sampleFavorite 3, sampleFavorite 4,
          sampleFavorite 5] :=
  saveFavorite_full 1000 (sampleLocation 6) fullStorage
    [sampleFavorite 1, sampleFavorite 2, sampleFavorite 3, sampleFavorite 4, sampleFavorite 5]
    rfl rfl (by simp [sampleFavorite, sampleLocation])

/-- C10. When the favorites key holds a list with an entry of the same id as the
location, whatever its length, `saveFavorite` resolves to `false`, raises no
error and leaves the storage as it was. -/
theorem saveFavorite_existing (now : ℤ) (location : Location) (storage : AsyncStorage)
    (favorites : List Favorite) (hstored : storage.favorites = some (StoredText.json favorites))
    (hexists : ∃ fav ∈ favorites, fav.id = location.id) :
    saveFavorite now location storage = (Except.ok false, storage) := by
  have hget : getFavorites storage = Loaded.value favorites := by
    simp [getFavorites, hstored]
  simp [saveFavorite, hget, any_id_eq_true hexists]

/-- Witness of C10: saving a location with id 3 into `fullStorage`, a full
list that holds a favorite with id 3. -/
theorem saveFavorite_existing_witness :
    fullStorage.favorites = some (StoredText.json
      [sampleFavorite 1, sampleFavorite 2, sampleFavorite 3, sampleFavorite 4,
        sampleFavorite 5]) ∧
    (∃ fav ∈ [sampleFavorite 1, sampleFavorite 2, sampleFavorite 3, sampleFavorite 4,
        sampleFavorite 5], fav.id = (sampleLocation 3).id) ∧
    saveFavorite 1000 (sampleLocation 3) fullStorage = (Except.ok false, fullStorage) :=
  ⟨rfl, ⟨sampleFavorite 3, by simp, rfl⟩,
    saveFavorite_existing 1000 (sampleLocation 3) fullStorage
      [sampleFavorite 1, sampleFavorite 2, sampleFavorite 3, sampleFavorite 4, sampleFavorite 5]
      rfl ⟨sampleFavorite 3, by simp, rfl⟩⟩

/-! ## Properties of the favorites operations -/

theorem saveFavorite_of_exists (now : ℤ) (location : Location) (storage : AsyncStorage)
    (favorites : List Favorite) (hget : getFavorites storage = Loaded.value favorites)
    (hexists : ∃ fav ∈ favorites, fav.id = location.id) :
    saveFavorite now location storage = (Except.ok false, storage) := by
  simp [saveFavorite, hget, any_id_eq_true hexists]

theorem saveFavorite_of_full (now : ℤ) (location : Location) (storage : AsyncStorage)
    (favorites : List Favorite) (hget : getFavorites storage = Loaded.value favorites)
    (hnew : ∀ fav ∈ favorites, fav.id ≠ location.id) (hfull : MAX_FAVORITES ≤ favorites.length) :
    (saveFavorite now location storage).2 = storage := by
  simp [saveFavorite, hget, any_id_eq_false hnew, hfull]

theorem saveFavorite_of_room (now : ℤ) (location : Location) (storage : AsyncStorage)
    (favorites : List Favorite) (hget : getFavorites storage = Loaded.value favorites)
    (hnew : ∀ fav ∈ favorites, fav.id ≠ location.id) (hroom : favorites.length < 5) :
    saveFavorite now location storage
      = (Except.ok true,
          { storage with
            favorites := some (StoredText.json (favorites ++
              [{ id := location.id, name := location.name, lat := location.lat,
                 lon := location.lon, country := location.country, addedAt := now }])) }) := by
  have hnot : ¬ MAX_FAVORITES ≤ favorites.length := by
    simp only [MAX_FAVORITES]; omega
  simp [saveFavorite, hget, any_id_eq_false hnew, hnot]

theorem getFavorites_stored (storage : AsyncStorage) (favorites : List Favorite) :
    getFavorites { storage with favorites := some (StoredText.json favorites) }
      = Loaded.value favorites := rfl

theorem removeFavorite_of_list (locationId : LocationId) (storage : AsyncStorage)
    (favorites : List Favorite) (hget : getFavorites storage = Loaded.value favorites) :
    removeFavorite locationId storage
      = (true, { storage with
          favorites := some (StoredText.json
            (favorites.filter (fun fav => decide (fav.id ≠ locationId)))) }) := by
  simp [removeFavorite, hget]

/-- One call preserves the property that the favorites key reads as a list of
at most 5 entries with pairwise distinct ids. -/
theorem favorites_bounded_step (call : FavoritesCall) (storage : AsyncStorage)
    (h : ∃ favorites, getFavorites storage = Loaded.value favorites ∧ favorites.length ≤ 5 ∧
      (favorites.map (fun fav => fav.id)).Nodup) :
    ∃ favorites, getFavorites (call.run storage) = Loaded.value favorites ∧
      favorites.length ≤ 5 ∧ (favorites.map (fun fav => fav.id)).Nodup := by
  obtain ⟨favorites, hget, hlen, hnd⟩ := h
  cases call with
  | save now location =>
    show ∃ favorites, getFavorites (saveFavorite now location storage).2 = _ ∧ _
    by_cases hexists : ∃ fav ∈ favorites, fav.id = location.id
    · rw [saveFavorite_of_exists now location storage favorites hget hexists]
      exact ⟨favorites, hget, hlen, hnd⟩
    · have hnew : ∀ fav ∈ favorites, fav.id ≠ location.id :=
        fun fav hfav hid => hexists ⟨fav, hfav, hid⟩
      by_cases hroom : favorites.length < 5
      · rw [saveFavorite_of_room now location storage favorites hget hnew hroom]
        refine ⟨_, getFavorites_stored _ _, ?_, ?_⟩
        · rw [List.length_append, List.length_singleton]; omega
        · rw [List.map_append, List.map_singleton]
          refine List.nodup_append.mpr ⟨hnd, List.nodup_singleton _, ?_⟩
          intro id hid hid2
          rw [List.mem_singleton] at hid2
          obtain ⟨fav, hfav, hfid⟩ := List.mem_map.mp hid
          exact hnew fav hfav (hfid.trans hid2)
      · have hfull : MAX_FAVORITES ≤ favorites.length := by
          simp only [MAX_FAVORITES]; omega
        rw [saveFavorite_of_full now location storage favorites hget hnew hfull]
        exact ⟨favorites, hget, hlen, hnd⟩
  | remove locationId =>
    show ∃ favorites, getFavorites (removeFavorite locationId storage).2 = _ ∧ _
    rw [removeFavorite_of_list locationId storage favorites hget]
    refine ⟨_, getFavorites_stored _ _, ?_, ?_⟩
    · exact le_trans (List.length_filter_le _ _) hlen
    · exact (List.filter_sublist favorites).map (fun fav => fav.id) |>.nodup hnd

/-- C11. When the favorites key reads as a list of fewer than 5 entries, none
with the id of the location, the first of two consecutive `saveFavorite` calls
for that location resolves to `true`, the second to `false`, and `getFavorites`
then returns a list with exactly one entry of that id. -/
theorem saveFavorite_twice (now₁ now₂ : ℤ) (location : Location) (storage : AsyncStorage)
    (favorites : List Favorite) (hget : getFavorites storage = Loaded.value favorites)
    (hroom : favorites.length < 5) (hnew : ∀ fav ∈ favorites, fav.id ≠ location.id) :
    (saveFavorite now₁ location storage).1 = Except.ok true ∧
    (saveFavorite now₂ location (saveFavorite now₁ location storage).2).1 = Except.ok false ∧
    ∃ saved, getFavorites (saveFavorite now₂ location (saveFavorite now₁ location storage).2).2
        = Loaded.value saved ∧
      saved.countP (fun fav => decide (fav.id = location.id)) = 1 := by
  rw [saveFavorite_of_room now₁ location storage favorites hget hnew hroom]
  have hsecond := saveFavorite_of_exists now₂ location
    { storage with
      favorites := some (StoredText.json (favorites ++
        [{ id := location.id, name := location.name, lat := location.lat,
           lon := location.lon, country := location.country, addedAt := now₁ }])) }
    _ (getFavorites_stored _ _)
    ⟨_, List.mem_append_right _ (List.mem_singleton_self _), rfl⟩
  refine ⟨rfl, ?_, ?_⟩
  · simp only [hsecond]
  · simp only [hsecond]
    refine ⟨_, getFavorites_stored _ _, ?_⟩
    rw [List.countP_append]
    have hzero : favorites.countP (fun fav => decide (fav.id = location.id)) = 0 := by
      rw [List.countP_eq_zero]
      intro fav hfav
      simpa using hnew fav hfav
    rw [hzero]
    simp

/-- Witness of C11: saving the location with id 9 twice into `partStorage`,
whose favorites have ids 1 and 2. -/
theorem saveFavorite_twice_witness :
    (saveFavorite 7 (sampleLocation 9) partStorage).1 = Except.ok true ∧
    (saveFavorite 8 (sampleLocation 9) (saveFavorite 7 (sampleLocation 9) partStorage).2).1
      = Except.ok false ∧
    ∃ saved,
      getFavorites (saveFavorite 8 (sampleLocation 9)
          (saveFavorite 7 (sampleLocation 9) partStorage).2).2 = Loaded.value saved ∧
      saved.countP (fun fav => decide (fav.id = (sampleLocation 9).id)) = 1 :=
  saveFavorite_twice 7 8 (sampleLocation 9) partStorage [sampleFavorite 1, sampleFavorite 2]
    rfl (by decide) (by simp [sampleFavorite, sampleLocation])

/-- C12. When the favorites key reads as a list of fewer than 5 entries, none
with the id of the location, `saveFavorite` resolves to `true` and afterwards
`getFavorites` returns the previous list followed by one new entry that has the
id, name, latitude, longitude and country of the location and the current time
as `addedAt`. -/
theorem saveFavorite_appends (now : ℤ) (location : Location) (storage : AsyncStorage)
    (favorites : List Favorite) (hget : getFavorites storage = Loaded.value favorites)
    (hroom : favorites.length < 5) (hnew : ∀ fav ∈ favorites, fav.id ≠ location.id) :
    (saveFavorite now location storage).1 = Except.ok true ∧
    getFavorites (saveFavorite now location storage).2
      = Loaded.value (favorites ++
          [{ id := location.id, name := location.name, lat := location.lat,
             lon := location.lon, country := location.country, addedAt := now }]) := by
  rw [saveFavorite_of_room now location storage favorites hget hnew hroom]
  exact ⟨rfl, rfl⟩

/-- Witness of C12: saving the location with id 9 into `partStorage`. -/
theorem saveFavorite_appends_witness :
    (saveFavorite 7 (sampleLocation 9) partStorage).1 = Except.ok true ∧
    getFavorites (saveFavorite 7 (sampleLocation 9) partStorage).2
      = Loaded.value ([sampleFavorite 1, sampleFavorite 2] ++
          [{ id := (sampleLocation 9).id, name := (sampleLocation 9).name,
             lat := (sampleLocation 9).lat, lon := (sampleLocation 9).lon,
             country := (sampleLocation 9).country, addedAt := 7 }]) :=
  saveFavorite_appends 7 (sampleLocation 9) partStorage [sampleFavorite 1, sampleFavorite 2]
    rfl (by decide) (by simp [sampleFavorite, sampleLocation])

/-- C13. From a state whose favorites key reads as a list of at most 5 entries
with pairwise distinct ids, every sequence of `saveFavorite` and
`removeFavorite` calls, whatever their results, leaves a state whose favorites
key reads as a list of at most 5 entries with pairwise distinct ids. -/
theorem favorites_bounded_distinct (calls : List FavoritesCall) (storage : AsyncStorage)
    (favorites : List Favorite) (hget : getFavorites storage = Loaded.value favorites)
    (hlen : favorites.length ≤ 5) (hdistinct : (favorites.map (fun fav => fav.id)).Nodup) :
    ∃ after, getFavorites (runFavoritesCalls calls storage) = Loaded.value after ∧
      after.length ≤ 5 ∧ (after.map (fun fav => fav.id)).Nodup := by
  have hstart : ∃ favorites, getFavorites storage = Loaded.value favorites ∧
      favorites.length ≤ 5 ∧ (favorites.map (fun fav => fav.id)).Nodup :=
    ⟨favorites, hget, hlen, hdistinct⟩
  clear hget hlen hdistinct
  induction calls generalizing storage with
  | nil => exact hstart
  | cons call calls ih =>
    exact ih (call.run storage) (favorites_bounded_step call storage hstart)

/-- Witness of C13: from `fullStorage`, a rejected save of id 6, a removal of
id 2, a save of id 6 and a repeated save of id 6. -/
theorem favorites_bounded_distinct_witness :
    ∃ after,
      getFavorites (runFavoritesCalls
        [FavoritesCall.save 10 (sampleLocation 6), FavoritesCall.remove (LocationId.num 2),
          FavoritesCall.save 11 (sampleLocation 6), FavoritesCall.save 12 (sampleLocation 6)]
        fullStorage) = Loaded.value after ∧
      after.length ≤ 5 ∧ (after.map (fun fav => fav.id)).Nodup :=
  favorites_bounded_distinct _ fullStorage
    [sampleFavorite 1, sampleFavorite 2, sampleFavorite 3, sampleFavorite 4, sampleFavorite 5]
    rfl (by decide) (by simp [sampleFavorite])

/-- C14 (counterexample). When the favorites key holds valid JSON that is not
an array, `removeFavorite` resolves to `false` and leaves the storage as it
was. -/
theorem removeFavorite_misshapen :
    (removeFavorite (LocationId.num 1) misshapenStorage).1 = false ∧
    (removeFavorite (LocationId.num 1) misshapenStorage).2 = misshapenStorage :=
  ⟨rfl, rfl⟩

/-- C14 (amended). When the favorites key reads as a list (it is absent, holds
a text that does not parse, or holds a stored list), `removeFavorite` resolves
to `true` and afterwards `getFavorites` returns the previous list without the
entries whose id is the given one, the others in their previous order; when no
entry has that id `getFavorites` returns the previous list. -/
theorem removeFavorite_filters (locationId : LocationId) (storage : AsyncStorage)
    (favorites : List Favorite) (hget : getFavorites storage = Loaded.value favorites) :
    (removeFavorite locationId storage).1 = true ∧
    getFavorites (removeFavorite locationId storage).2
      = Loaded.value (favorites.filter (fun fav => decide (fav.id ≠ locationId))) ∧
    ((∀ fav ∈ favorites, fav.id ≠ locationId) →
      getFavorites (removeFavorite locationId storage).2 = Loaded.value favorites) := by
  rw [removeFavorite_of_list locationId storage favorites hget]
  refine ⟨rfl, rfl, ?_⟩
  intro hnone
  have hall : favorites.filter (fun fav => decide (fav.id ≠ locationId)) = favorites := by
    rw [List.filter_eq_self]
    intro fav hfav
    simpa using hnone fav hfav
  rw [getFavorites_stored, hall]

/-- Witness of C14 (amended): removing id 1 from `partStorage`, whose favorites have ids
1 and 2. -/
theorem removeFavorite_filters_witness :
    (removeFavorite (LocationId.num 1) partStorage).1 = true ∧
    getFavorites (removeFavorite (LocationId.num 1) partStorage).2
      = Loaded.value ([sampleFavorite 1, sampleFavorite 2].filter
          (fun fav => decide (fav.id ≠ LocationId.num 1))) ∧
    ((∀ fav ∈ [sampleFavorite 1, sampleFavorite 2], fav.id ≠ LocationId.num 1) →
      getFavorites (removeFavorite (LocationId.num 1) partStorage).2
        = Loaded.value [sampleFavorite 1, sampleFavorite 2]) :=
  removeFavorite_filters (LocationId.num 1) partStorage [sampleFavorite 1, sampleFavorite 2] rfl

/-! ## Properties of the recent-searches operations -/

theorem getRecentSearches_stored (storage : AsyncStorage) (searches : List RecentSearch) :
    getRecentSearches { storage with recentSearches := some (StoredText.json searches) }
      = Loaded.value searches := rfl

theorem saveRecentSearch_of_list (now : ℤ) (location : Location) (storage : AsyncStorage)
    (stored : List RecentSearch) (hget : getRecentSearches storage = Loaded.value stored) :
    saveRecentSearch now location storage
      = (true, { storage with
          recentSearches := some (StoredText.json
            (({ id := location.id, name := location.name, lat := location.lat,
                lon := location.lon, country := location.country, searchedAt := now }
              :: stored.filter (fun search => decide (search.id ≠ location.id))).take 3)) }) := by
  simp only [saveRecentSearch, hget, MAX_RECENT_SEARCHES]
  split
  · rfl
  · rename_i hshort
    rw [List.take_of_length_le (by omega)]

theorem countP_id_filter_ne (stored : List RecentSearch) (id : LocationId) :
    (stored.filter (fun search => decide (search.id ≠ id))).countP
      (fun search => decide (search.id = id)) = 0 := by
  rw [List.countP_eq_zero]
  intro search hsearch
  have := (List.mem_filter.mp hsearch).2
  simpa using this

/-- C15. When the recent-searches key reads as a list, `saveRecentSearch`
resolves to `true` and afterwards `getRecentSearches` returns the first 3
elements of the new entry for the location followed by the previous entries
whose id differs from the location's, in their previous order. -/
theorem saveRecentSearch_front_take (now : ℤ) (location : Location) (storage : AsyncStorage)
    (stored : List RecentSearch) (hget : getRecentSearches storage = Loaded.value stored) :
    (saveRecentSearch now location storage).1 = true ∧
    getRecentSearches (saveRecentSearch now location storage).2
      = Loaded.value
          (({ id := location.id, name := location.name, lat := location.lat,
              lon := location.lon, country := location.country, searchedAt := now }
            :: stored.filter (fun search => decide (search.id ≠ location.id))).take 3) := by
  rw [saveRecentSearch_of_list now location storage stored hget]
  exact ⟨rfl, rfl⟩

/-- Witness of C15, on `threeSearches` (ids 2, 3, 4): searching again the
location with id 3 moves it to the front without a duplicate, and searching
the location with id 1 puts it in front and drops the oldest entry, id 4. -/
theorem saveRecentSearch_front_take_witness :
    getRecentSearches (saveRecentSearch 9 (sampleLocation 3) threeSearches).2
      = Loaded.value [sampleSearch 3 9, sampleSearch 2 4, sampleSearch 4 2] ∧
    getRecentSearches (saveRecentSearch 9 (sampleLocation 1) threeSearches).2
      = Loaded.value [sampleSearch 1 9, sampleSearch 2 4, sampleSearch 3 3] :=
  ⟨(saveRecentSearch_front_take 9 (sampleLocation 3) threeSearches
      [sampleSearch 2 4, sampleSearch 3 3, sampleSearch 4 2] rfl).2.trans
      (by simp [sampleSearch, sampleLocation]),
    (saveRecentSearch_front_take 9 (sampleLocation 1) threeSearches
      [sampleSearch 2 4, sampleSearch 3 3, sampleSearch 4 2] rfl).2.trans
      (by simp [sampleSearch, sampleLocation])⟩

/-- C16. When the recent-searches key reads as a list of any length, after
`saveRecentSearch` it reads as a list of at most 3 entries whose first entry
has the id of the location; and from a state with no recent searches, saving
one location three times and then a location with another id leaves the two
entries of the last save and of the third save, in that order. -/
theorem saveRecentSearch_bounded (now : ℤ) (location : Location) (storage : AsyncStorage)
    (stored : List RecentSearch) (hget : getRecentSearches storage = Loaded.value stored) :
    (∃ after, getRecentSearches (saveRecentSearch now location storage).2 = Loaded.value after ∧
      after.length ≤ 3 ∧ after.head?.map (fun search => search.id) = some location.id) ∧
    (∀ (now₁ now₂ now₃ now₄ : ℤ) (other : Location), other.id ≠ location.id →
      stored = [] →
      getRecentSearches
          (saveRecentSearch now₄ other
            (saveRecentSearch now₃ location
              (saveRecentSearch now₂ location
                (saveRecentSearch now₁ location storage).2).2).2).2
        = Loaded.value
            [{ id := other.id, name := other.name, lat := other.lat, lon := other.lon,
               country := other.country, searchedAt := now₄ },
             { id := location.id, name := location.name, lat := location.lat,
               lon := location.lon, country := location.country, searchedAt := now₃ }]) := by
  constructor
  · rw [saveRecentSearch_of_list now location storage stored hget]
    refine ⟨_, getRecentSearches_stored _ _, ?_, ?_⟩
    · exact List.length_take_le _ _
    · rfl
  · intro now₁ now₂ now₃ now₄ other hother hempty
    subst hempty
    have hne : ¬ location.id = other.id := fun h => hother h.symm
    rw [saveRecentSearch_of_list now₁ location storage [] hget]
    rw [saveRecentSearch_of_list now₂ location _ _ (getRecentSearches_stored _ _)]
    rw [saveRecentSearch_of_list now₃ location _ _ (getRecentSearches_stored _ _)]
    rw [saveRecentSearch_of_list now₄ other _ _ (getRecentSearches_stored _ _)]
    simp [getRecentSearches, List.filter, hne]

/-- Witness of C16: from `emptyStorage`, the location with id 1 at times 1, 2
and 3, then the location with id 2 at time 4. -/
theorem saveRecentSearch_bounded_witness :
    getRecentSearches
        (saveRecentSearch 4 (sampleLocation 2)
          (saveRecentSearch 3 (sampleLocation 1)
            (saveRecentSearch 2 (sampleLocation 1)
              (saveRecentSearch 1 (sampleLocation 1) emptyStorage).2).2).2).2
      = Loaded.value
          [{ id := (sampleLocation 2).id, name := (sampleLocation 2).name,
             lat := (sampleLocation 2).lat, lon := (sampleLocation 2).lon,
             country := (sampleLocation 2).country, searchedAt := 4 },
           { id := (sampleLocation 1).id, name := (sampleLocation 1).name,
             lat := (sampleLocation 1).lat, lon := (sampleLocation 1).lon,
             country := (sampleLocation 1).country, searchedAt := 3 }] :=
  (saveRecentSearch_bounded 1 (sampleLocation 1) emptyStorage [] rfl).2 1 2 3 4
    (sampleLocation 2) (by simp [sampleLocation]) rfl

/-- C17. When the recent-searches key reads as a list with pairwise distinct
ids, after `saveRecentSearch` it reads as a list with pairwise distinct ids
that contains the id of the location exactly once. -/
theorem saveRecentSearch_distinct (now : ℤ) (location : Location) (storage : AsyncStorage)
    (stored : List RecentSearch) (hget : getRecentSearches storage = Loaded.value stored)
    (hdistinct : (stored.map (fun search => search.id)).Nodup) :
    ∃ after, getRecentSearches (saveRecentSearch now location storage).2 = Loaded.value after ∧
      (after.map (fun search => search.id)).Nodup ∧
      after.countP (fun search => decide (search.id = location.id)) = 1 := by
  rw [saveRecentSearch_of_list now location storage stored hget]
  refine ⟨_, getRecentSearches_stored _ _, ?_, ?_⟩
  · have hfiltered : ((stored.filter (fun search => decide (search.id ≠ location.id))).map
        (fun search => search.id)).Nodup :=
      ((List.filter_sublist stored).map (fun search => search.id)).nodup hdistinct
    have hcons : (location.id ::
        (stored.filter (fun search => decide (search.id ≠ location.id))).map
          (fun search => search.id)).Nodup := by
      rw [List.nodup_cons]
      refine ⟨?_, hfiltered⟩
      intro hmem
      obtain ⟨search, hsearch, hid⟩ := List.mem_map.mp hmem
      have := (List.mem_filter.mp hsearch).2
      simp only [decide_eq_true_eq] at this
      exact this hid
    exact ((List.take_sublist 3 _).map (fun search : RecentSearch => search.id)).nodup
      (by rw [List.map_cons]; exact hcons)
  · rw [List.take_succ_cons, List.countP_cons_of_pos _ _ (by simp)]
    have hzero : ((stored.filter (fun search => decide (search.id ≠ location.id))).take 2).countP
        (fun search => decide (search.id = location.id)) = 0 := by
      have hle := (List.take_sublist 2
        (stored.filter (fun search => decide (search.id ≠ location.id)))).countP_le
        (fun search => decide (search.id = location.id))
      rw [countP_id_filter_ne] at hle
      omega
    rw [hzero]

/-- Witness of C17: searching the location with id 1 again when the searches
with ids 2 and 1 are stored. -/
theorem saveRecentSearch_distinct_witness :
    ∃ after,
      getRecentSearches (saveRecentSearch 5 (sampleLocation 1)
        { emptyStorage with
          recentSearches := some (StoredText.json [sampleSearch 2 4, sampleSearch 1 3]) }).2
        = Loaded.value after ∧
      (after.map (fun search => search.id)).Nodup ∧
      after.countP (fun search => decide (search.id = (sampleLocation 1).id)) = 1 :=
  saveRecentSearch_distinct 5 (sampleLocation 1)
    { emptyStorage with
      recentSearches := some (StoredText.json [sampleSearch 2 4, sampleSearch 1 3]) }
    [sampleSearch 2 4, sampleSearch 1 3] rfl (by simp [sampleSearch])

/-! ## Properties of the settings operations -/

theorem getProperty_eq_none_of_not_mem (key : String) (object : Settings)
    (h : key ∉ object.map Prod.fst) : getProperty key object = none := by
  induction object with
  | nil => rfl
  | cons entry rest ih =>
    obtain ⟨k, v⟩ := entry
    rw [List.map_cons, List.mem_cons, not_or] at h
    have hk : ¬ k = key := fun hk => h.1 hk.symm
    simp [getProperty, ih h.2, hk]

theorem mem_keys_setProperty (key : String) (value : SettingValue) (object : Settings)
    (k : String) :
    k ∈ (setProperty key value object).map Prod.fst ↔ k = key ∨ k ∈ object.map Prod.fst := by
  induction object with
  | nil => simp [setProperty]
  | cons entry rest ih =>
    obtain ⟨k₀, v₀⟩ := entry
    by_cases h : k₀ = key
    · simp only [setProperty, if_pos h, List.map_cons, List.mem_cons]
      constructor
      · exact Or.inr
      · rintro (hk | hk)
        · exact Or.inl (hk.trans h.symm)
        · exact hk
    · simp only [setProperty, if_neg h, List.map_cons, List.mem_cons, ih]
      tauto

theorem nodup_keys_setProperty (key : String) (value : SettingValue) (object : Settings)
    (h : (object.map Prod.fst).Nodup) : ((setProperty key value object).map Prod.fst).Nodup := by
  induction object with
  | nil => simp [setProperty]
  | cons entry rest ih =>
    obtain ⟨k₀, v₀⟩ := entry
    rw [List.map_cons, List.nodup_cons] at h
    by_cases hk : k₀ = key
    · simp only [setProperty, if_pos hk, List.map_cons, List.nodup_cons]
      exact h
    · simp only [setProperty, if_neg hk, List.map_cons, List.nodup_cons]
      refine ⟨?_, ih h.2⟩
      rw [mem_keys_setProperty]
      rintro (hmem | hmem)
      · exact hk hmem
      · exact h.1 hmem

theorem getProperty_setProperty (key : String) (value : SettingValue) (object : Settings)
    (h : (object.map Prod.fst).Nodup) (k : String) :
    getProperty k (setProperty key value object)
      = if key = k then some value else getProperty k object := by
  induction object with
  | nil => simp [setProperty, getProperty]
  | cons entry rest ih =>
    obtain ⟨k₀, v₀⟩ := entry
    rw [List.map_cons, List.nodup_cons] at h
    by_cases hk : k₀ = key
    · subst hk
      simp only [setProperty, if_true, getProperty]
      by_cases hkk : k₀ = k
      · subst hkk
        simp [getProperty_eq_none_of_not_mem k₀ rest h.1]
      · simp [hkk]
    · simp only [setProperty, if_neg hk, getProperty, ih h.2]
      by_cases hkk : key = k
      · simp [hkk]
      · simp [hkk]

theorem spreadInto_spec (source target : Settings) (h : (target.map Prod.fst).Nodup) :
    ((spreadInto target source).map Prod.fst).Nodup ∧
    ∀ k, getProperty k (spreadInto target source)
      = match getProperty k source with
        | some v => some v
        | none => getProperty k target := by
  induction source generalizing target with
  | nil => exact ⟨h, fun k => rfl⟩
  | cons entry rest ih =>
    obtain ⟨k₀, v₀⟩ := entry
    have hstep := ih (setProperty k₀ v₀ target) (nodup_keys_setProperty k₀ v₀ target h)
    refine ⟨hstep.1, ?_⟩
    intro k
    have hk := hstep.2 k
    rw [getProperty_setProperty k₀ v₀ target h k] at hk
    show getProperty k (spreadInto (setProperty k₀ v₀ target) rest) = _
    rw [hk]
    simp only [getProperty]
    cases getProperty k rest with
    | some w => rfl
    | none =>
      by_cases hkk : k₀ = k
      · simp [hkk]
      · simp [hkk]

theorem getSettings_stored (storage : AsyncStorage) (settings : Settings) :
    getSettings { storage with settings := some (StoredText.json settings) }
      = Loaded.value settings := rfl

/-- C18. When `getSettings` returns a settings object, `saveSettings` with a
partial settings object resolves to `true` and afterwards `getSettings` returns
an object in which every key of the partial object has the value given there
and every other key has the value it had in the previous `getSettings`
result. -/
theorem saveSettings_merges (settings : Settings) (storage : AsyncStorage)
    (current : Settings) (hget : getSettings storage = Loaded.value current) :
    (saveSettings settings storage).1 = true ∧
    ∃ updated, getSettings (saveSettings settings storage).2 = Loaded.value updated ∧
      ∀ key, getProperty key updated
        = match getProperty key settings with
          | some value => some value
          | none => getProperty key current := by
  refine ⟨rfl, spreadInto (spreadInto [] current) settings, ?_, ?_⟩
  · simp only [saveSettings, hget]
    rfl
  · intro key
    have hcopy := spreadInto_spec current [] List.nodup_nil
    rw [(spreadInto_spec settings (spreadInto [] current) hcopy.1).2 key, hcopy.2 key]
    cases getProperty key current <;> rfl

/-- Witness of C18: with nothing stored, saving a 24-hour time format leaves
the default temperature unit and the new time format. -/
theorem saveSettings_merges_witness :
    (saveSettings [("timeFormat", SettingValue.str "24h")] emptyStorage).1 = true ∧
    ∃ updated,
      getSettings (saveSettings [("timeFormat", SettingValue.str "24h")] emptyStorage).2
        = Loaded.value updated ∧
      ∀ key, getProperty key updated
        = match getProperty key [("timeFormat", SettingValue.str "24h")] with
          | some value => some value
          | none => getProperty key DEFAULT_SETTINGS :=
  saveSettings_merges [("timeFormat", SettingValue.str "24h")] emptyStorage DEFAULT_SETTINGS rfl

/-- C19. When the settings key is absent, `getSettings` returns the default
settings: metric, km/h, 12h, and the three toggles on. -/
theorem getSettings_absent (storage : AsyncStorage) (habsent : storage.settings = none) :
    getSettings storage = Loaded.value
      [ ("temperatureUnit", SettingValue.str "metric"),
        ("windSpeedUnit", SettingValue.str "km/h"),
        ("timeFormat", SettingValue.str "12h"),
        ("weatherAlerts", SettingValue.bool true),
        ("dailyForecast", SettingValue.bool true),
        ("autoLocation", SettingValue.bool true) ] := by
  simp [getSettings, habsent, DEFAULT_SETTINGS]

/-- Witness of C19: `emptyStorage` has no settings key. -/
theorem getSettings_absent_witness :
    getSettings emptyStorage = Loaded.value
      [ ("temperatureUnit", SettingValue.str "metric"),
        ("windSpeedUnit", SettingValue.str "km/h"),
        ("timeFormat", SettingValue.str "12h"),
        ("weatherAlerts", SettingValue.bool true),
        ("dailyForecast", SettingValue.bool true),
        ("autoLocation", SettingValue.bool true) ] :=
  getSettings_absent emptyStorage rfl

/-- C20. After `resetSettings`, which resolves to `true`, `getSettings` returns
the default settings whatever was stored before, and the favorites,
recent-searches and last-location keys hold what they held. -/
theorem resetSettings_defaults (storage : AsyncStorage) :
    (resetSettings storage).1 = true ∧
    getSettings (resetSettings storage).2 = Loaded.value
      [ ("temperatureUnit", SettingValue.str "metric"),
        ("windSpeedUnit", SettingValue.str "km/h"),
        ("timeFormat", SettingValue.str "12h"),
        ("weatherAlerts", SettingValue.bool true),
        ("dailyForecast", SettingValue.bool true),
        ("autoLocation", SettingValue.bool true) ] ∧
    (resetSettings storage).2.favorites = storage.favorites ∧
    (resetSettings storage).2.recentSearches = storage.recentSearches ∧
    (resetSettings storage).2.lastLocation = storage.lastLocation :=
  ⟨rfl, rfl, rfl, rfl, rfl⟩

/-! ## Clearing the store and corrupt stored texts -/

/-- C21. `clearAllData` resolves to `true` and leaves the four keys absent, so
that `getFavorites` and `getRecentSearches` return the empty list,
`getSettings` the default settings and `getLastLocation` `null`. -/
theorem clearAllData_clears (storage : AsyncStorage) :
    (clearAllData storage).1 = true ∧
    (clearAllData storage).2.favorites = none ∧
    (clearAllData storage).2.recentSearches = none ∧
    (clearAllData storage).2.settings = none ∧
    (clearAllData storage).2.lastLocation = none ∧
    getFavorites (clearAllData storage).2 = Loaded.value [] ∧
    getRecentSearches (clearAllData storage).2 = Loaded.value [] ∧
    getSettings (clearAllData storage).2 = Loaded.value
      [ ("temperatureUnit", SettingValue.str "metric"),
        ("windSpeedUnit", SettingValue.str "km/h"),
        ("timeFormat", SettingValue.str "12h"),
        ("weatherAlerts", SettingValue.bool true),
        ("dailyForecast", SettingValue.bool true),
        ("autoLocation", SettingValue.bool true) ] ∧
    getLastLocation (clearAllData storage).2 = Loaded.value none :=
  ⟨rfl, rfl, rfl, rfl, rfl, rfl, rfl, rfl, rfl⟩

/-- C22 (counterexample). When the favorites key holds valid JSON that is not
an array, `getFavorites` does not return the empty list and `saveFavorite` is
rejected with a `TypeError`, whereas on the absent key it resolves to
`true`. -/
theorem misshapen_favorites_not_absent :
    getFavorites misshapenStorage ≠ Loaded.value [] ∧
    (saveFavorite 1000 (sampleLocation 1) misshapenStorage).1
      = Except.error JsError.typeError ∧
    (saveFavorite 1000 (sampleLocation 1) emptyStorage).1 = Except.ok true := by
  refine ⟨?_, rfl, ?_⟩
  · intro h
    exact Loaded.noConfusion h
  · simp [saveFavorite, getFavorites, emptyStorage, MAX_FAVORITES]

/-- C22 (amended). A text on which `JSON.parse` throws behaves as an absent
key, under each of the four keys: the getter returns the default (the empty
list, the empty list, the default settings, `null`), and `saveFavorite`,
`removeFavorite`, `saveRecentSearch` and `saveSettings` give the result and
leave the state they give and leave when the key is absent; none of them
fails. -/
theorem unparsable_text_as_absent (storage : AsyncStorage) (now : ℤ) (location : Location)
    (locationId : LocationId) (settings : Settings) :
    (getFavorites { storage with favorites := some StoredText.invalid } = Loaded.value [] ∧
      saveFavorite now location { storage with favorites := some StoredText.invalid }
        = saveFavorite now location { storage with favorites := none } ∧
      (saveFavorite now location { storage with favorites := some StoredText.invalid }).1
        = Except.ok true ∧
      removeFavorite locationId { storage with favorites := some StoredText.invalid }
        = removeFavorite locationId { storage with favorites := none } ∧
      (removeFavorite locationId { storage with favorites := some StoredText.invalid }).1
        = true) ∧
    (getRecentSearches { storage with recentSearches := some StoredText.invalid }
        = Loaded.value [] ∧
      saveRecentSearch now location { storage with recentSearches := some StoredText.invalid }
        = saveRecentSearch now location { storage with recentSearches := none } ∧
      (saveRecentSearch now location
        { storage with recentSearches := some StoredText.invalid }).1 = true) ∧
    (getSettings { storage with settings := some StoredText.invalid }
        = Loaded.value DEFAULT_SETTINGS ∧
      saveSettings settings { storage with settings := some StoredText.invalid }
        = saveSettings settings { storage with settings := none } ∧
      (saveSettings settings { storage with settings := some StoredText.invalid }).1 = true) ∧
    getLastLocation { storage with lastLocation := some StoredText.invalid }
      = Loaded.value none := by
  refine ⟨⟨rfl, ?_, ?_, rfl, rfl⟩, ⟨rfl, rfl, rfl⟩, ⟨rfl, rfl, rfl⟩, rfl⟩
  · simp [saveFavorite, getFavorites, MAX_FAVORITES]
  · simp [saveFavorite, getFavorites, MAX_FAVORITES]

/-! ## Properties of the weather data client -/

theorem orFallback_ne_empty (value : Option String) (fallback : String)
    (h : fallback ≠ "") : orFallback value fallback ≠ "" := by
  cases value with
  | none => exact h
  | some message =>
    by_cases hm : message = ""
    · simp [orFallback, hm, h]
    · simp [orFallback, hm]

theorem orFallback_of_ne_empty (message fallback : String) (h : message ≠ "") :
    orFallback (some message) fallback = message := by
  simp [orFallback, h]

/-- When `handleAPIError` returns, the message of the returned error is not
empty and `handleAPIError` applied to the returned error returns an error with
the same message. -/
theorem handleAPIError_idempotent (error : CaughtError) (message : String)
    (h : handleAPIError error = Except.ok (JsError.error message)) :
    message ≠ "" ∧ handleAPIError (newError message) = Except.ok (JsError.error message) := by
  have hne : message ≠ "" := by
    unfold handleAPIError at h
    cases hr : error.response with
    | some data =>
      cases data with
      | nullish => simp [hr] at h
      | body m =>
        simp only [hr, Except.ok.injEq, JsError.error.injEq] at h
        rw [← h]
        exact orFallback_ne_empty _ _ (by decide)
    | none =>
      by_cases hq : error.request = true
      · simp only [hr, hq, if_true, Except.ok.injEq, JsError.error.injEq] at h
        rw [← h]
        decide
      · have hq2 : error.request = false := by simpa using hq
        simp only [hr, hq2, Bool.false_eq_true, if_false, Except.ok.injEq,
          JsError.error.injEq] at h
        rw [← h]
        exact orFallback_ne_empty _ _ (by decide)
  refine ⟨hne, ?_⟩
  simp [handleAPIError, newError, orFallback_of_ne_empty message _ hne]

/-- C23 (evaluation at the failing input). For a server response whose body is
`null`, `handleAPIError` returns no error: reading `message` of
`error.response.data` throws a `TypeError`. A body that has a non-empty
`message` gives that message and any other body that is not `null` gives
`Server error occurred`. -/
theorem handleAPIError_null_body :
    handleAPIError nullBodyError = Except.error JsError.typeError ∧
    (∀ (request : Bool) (own : Option String) (message : String), message ≠ "" →
      handleAPIError
          { response := some (ResponseData.body (some message)), request := request,
            message := own }
        = Except.ok (JsError.error message)) ∧
    (∀ (request : Bool) (own : Option String),
      handleAPIError
          { response := some (ResponseData.body none), request := request, message := own }
        = Except.ok (JsError.error "Server error occurred") ∧
      handleAPIError
          { response := some (ResponseData.body (some "")), request := request, message := own }
        = Except.ok (JsError.error "Server error occurred")) := by
  refine ⟨rfl, ?_, ?_⟩
  · intro request own message hne
    simp [handleAPIError, orFallback, hne]
  · intro request own
    exact ⟨rfl, rfl⟩

/-- C24. For an error without a response: when it has a request,
`handleAPIError` returns the error
`No response from server. Check your internet connection.`; when it has none,
it returns an error with the message of the error when that message is not
empty, and with `An error occurred` when the message is missing or empty. -/
theorem handleAPIError_no_response (error : CaughtError) (hnone : error.response = none) :
    (error.request = true → handleAPIError error
      = Except.ok (JsError.error "No response from server. Check your internet connection.")) ∧
    (error.request = false → ∀ message, error.message = some message → message ≠ "" →
      handleAPIError error = Except.ok (JsError.error message)) ∧
    (error.request = false → (error.message = none ∨ error.message = some "") →
      handleAPIError error = Except.ok (JsError.error "An error occurred")) := by
  refine ⟨?_, ?_, ?_⟩
  · intro hq
    simp [handleAPIError, hnone, hq]
  · intro hq message hm hne
    simp [handleAPIError, hnone, hq, hm, orFallback, hne]
  · intro hq hm
    rcases hm with hm | hm
    · simp [handleAPIError, hnone, hq, hm, orFallback]
    · simp [handleAPIError, hnone, hq, hm, orFallback]

/-- Witness of C24: a timeout, an error that has a request and no response. -/
theorem handleAPIError_no_response_witness :
    handleAPIError
        { response := none, request := true, message := some "timeout of 10000ms exceeded" }
      = Except.ok (JsError.error "No response from server. Check your internet connection.") :=
  (handleAPIError_no_response
    { response := none, request := true, message := some "timeout of 10000ms exceeded" }
    rfl).1 rfl

/-- C25 (counterexample). When the remote API answers with six cities,
`searchCities` with the limit omitted returns all six, more than 5. -/
theorem searchCities_exceeds_limit :
    ∃ cities, searchCities sixCities "London" none = Except.ok cities ∧ ¬ cities.length ≤ 5 :=
  ⟨_, rfl, by decide⟩

/-- C25 (amended). `searchCities` asks the remote API for `limit` results (5
when the limit is omitted) and, on a response, returns the list of the
response as it is, the empty list when the response has none; so the result
has at most `limit` entries whenever the list of the response has. -/
theorem searchCities_returns_response_list (get : FindParams → ApiResult) (query : String)
    (limit : Option ℕ) (list : Option (List Location))
    (hresponse : get { q := query, type := "like", cnt := limit.getD 5 }
      = ApiResult.response list) :
    searchCities get query limit = Except.ok (list.getD []) ∧
    ((list.getD []).length ≤ limit.getD 5 →
      ∀ cities, searchCities get query limit = Except.ok cities →
        cities.length ≤ limit.getD 5) := by
  have hres : searchCities get query limit = Except.ok (list.getD []) := by
    simp [searchCities, hresponse]
  refine ⟨hres, ?_⟩
  intro hlen cities hcities
  rw [hres] at hcities
  rw [← Except.ok.inj hcities]
  exact hlen

/-- Witness of C25 (amended): six cities asked for and six returned. -/
theorem searchCities_returns_response_list_witness :
    searchCities sixCities "London" (some 6)
      = Except.ok ((some [sampleLocation 1, sampleLocation 2, sampleLocation 3,
          sampleLocation 4, sampleLocation 5, sampleLocation 6]).getD []) ∧
    (((some [sampleLocation 1, sampleLocation 2, sampleLocation 3,
          sampleLocation 4, sampleLocation 5, sampleLocation 6]).getD []).length
        ≤ (some 6).getD 5 →
      ∀ cities, searchCities sixCities "London" (some 6) = Except.ok cities →
        cities.length ≤ (some 6).getD 5) :=
  searchCities_returns_response_list sixCities "London" (some 6) _ rfl

/-- C26. When the response to a search has an empty list, or no list at all,
`searchCities` resolves to the empty list. -/
theorem searchCities_no_match (get : FindParams → ApiResult) (query : String)
    (limit : Option ℕ) (list : Option (List Location))
    (hresponse : get { q := query, type := "like", cnt := limit.getD 5 }
      = ApiResult.response list)
    (hempty : list = none ∨ list = some []) :
    searchCities get query limit = Except.ok [] := by
  rcases hempty with h | h <;> simp [searchCities, hresponse, h]

/-- Witness of C26: a remote API that finds no city. -/
theorem searchCities_no_match_witness :
    searchCities noCities "Atlantis" none = Except.ok [] :=
  searchCities_no_match noCities "Atlantis" none (some []) rfl (Or.inr rfl)

/-- C30 (evaluation at the failing input). For a server response whose body is
`null`, `handleAPIError` returns no error at all, hence none with a non-empty
message to which it could be applied again. -/
theorem handleAPIError_not_total :
    ¬ ∃ formatted, handleAPIError nullBodyError = Except.ok formatted := by
  rintro ⟨formatted, h⟩
  exact Except.noConfusion h

/-! ## Properties of the format utilities -/

/-- C28. For every number, `getUVIndexDescription` is `Low` exactly up to 2,
`Moderate` exactly above 2 and up to 5, `High` exactly above 5 and up to 7,
`Very High` exactly above 7 and up to 10, and `Extreme` exactly above 10; 6
gives `High` and 11 gives `Extreme`. -/
theorem getUVIndexDescription_spec (uvIndex : ℚ) :
    (getUVIndexDescription uvIndex = "Low" ↔ uvIndex ≤ 2) ∧
    (getUVIndexDescription uvIndex = "Moderate" ↔ 2 < uvIndex ∧ uvIndex ≤ 5) ∧
    (getUVIndexDescription uvIndex = "High" ↔ 5 < uvIndex ∧ uvIndex ≤ 7) ∧
    (getUVIndexDescription uvIndex = "Very High" ↔ 7 < uvIndex ∧ uvIndex ≤ 10) ∧
    (getUVIndexDescription uvIndex = "Extreme" ↔ 10 < uvIndex) ∧
    getUVIndexDescription 6 = "High" ∧
    getUVIndexDescription 11 = "Extreme" := by
  have e6 : getUVIndexDescription 6 = "High" := by
    simp only [getUVIndexDescription]; norm_num
  have e11 : getUVIndexDescription 11 = "Extreme" := by
    simp only [getUVIndexDescription]; norm_num
  refine ⟨?_, ?_, ?_, ?_, ?_, e6, e11⟩
  all_goals
    unfold getUVIndexDescription
    split_ifs with h1 h2 h3 h4
  all_goals
    simp only [not_le] at *
  all_goals
    constructor
  all_goals
    intro h
  all_goals
    first
      | exact absurd h (by decide)
      | (constructor <;> linarith)
      | linarith

/-- C29. `validateCoordinates` returns `true` exactly when both arguments are
numbers, the first between -90 and 90 and the second between -180 and 180,
the bounds included. -/
theorem validateCoordinates_iff (lat lon : JsValue) :
    validateCoordinates lat lon = true ↔
      ∃ x y, lat = JsValue.number x ∧ lon = JsValue.number y ∧
        -90 ≤ x ∧ x ≤ 90 ∧ -180 ≤ y ∧ y ≤ 180 := by
  cases lat with
  | notNumber => simp [validateCoordinates]
  | number x =>
    cases lon with
    | notNumber => simp [validateCoordinates]
    | number y =>
      simp only [validateCoordinates, Bool.and_eq_true, decide_eq_true_eq, ge_iff_le,
        JsValue.number.injEq]
      constructor
      · rintro ⟨⟨⟨h1, h2⟩, h3⟩, h4⟩
        exact ⟨x, y, rfl, rfl, h1, h2, h3, h4⟩
      · rintro ⟨x', y', hx, hy, h1, h2, h3, h4⟩
        subst hx
        subst hy
        exact ⟨⟨⟨h1, h2⟩, h3⟩, h4⟩

end WeatherNow
